import Mathlib

set_option autoImplicit false

namespace Pitch

/-!
Shallow embedding of the pitch-generation service (`main.py`) and the
batch graph routing (`agent.py`).  External generation calls are opaque
oracles collected in `Env`; everything the repository's own code does —
JSON extraction with fallback, the critique/refine loop, the approval
gate, the session store — is translated directly.
-/

/-! ### Characters and Python-style text helpers -/

def tick : Char := Char.ofNat 96
def lbraceCh : Char := Char.ofNat 123
def rbraceCh : Char := Char.ofNat 125
def vtab : Char := Char.ofNat 11
def ffeed : Char := Char.ofNat 12

/-- Python `str.strip` whitespace set. -/
def isPyWs (c : Char) : Bool :=
  c == ' ' || c == '\t' || c == '\n' || c == '\r' || c == vtab || c == ffeed

/-- Whitespace accepted around JSON tokens by the decoder. -/
def isJWs (c : Char) : Bool :=
  c == ' ' || c == '\t' || c == '\n' || c == '\r'

def pyStrip (cs : List Char) : List Char :=
  ((cs.dropWhile isPyWs).reverse.dropWhile isPyWs).reverse

/-- `leadsWith p s` is Python's `s.startswith(p)`. -/
def leadsWith : List Char → List Char → Bool
  | [], _ => true
  | _ :: _, [] => false
  | p :: ps, c :: cs => p == c && leadsWith ps cs

def consHead (c : Char) : List (List Char) → List (List Char)
  | [] => [[c]]
  | g :: gs => (c :: g) :: gs

/-- Python `s.split("```")`: non-overlapping, left to right. -/
def splitOnTicks : List Char → List (List Char)
  | [] => [[]]
  | a :: b :: c :: rest =>
    if a = tick ∧ b = tick ∧ c = tick then [] :: splitOnTicks rest
    else consHead a (splitOnTicks (b :: c :: rest))
  | a :: rest => consHead a (splitOnTicks rest)

/-! ### The JSON value model -/

/-- What `json.loads` can produce.  A number literal is kept as a
mantissa together with a power-of-ten exponent. -/
inductive Json where
  | null : Json
  | bool : Bool → Json
  | num : Int → Int → Json
  | str : String → Json
  | arr : List Json → Json
  | obj : List (String × Json) → Json

/-- Python `dict` lookup on parsed JSON: with duplicate keys the last
occurrence wins, as in `json.loads`. -/
def lookupLast (kvs : List (String × Json)) (k : String) : Option Json :=
  match kvs with
  | [] => none
  | (k', v) :: rest =>
    match lookupLast rest k with
    | some r => some r
    | none => if k' = k then some v else none

/-- `j.get(k)`: `none` models the `AttributeError` raised when `j` is not
a dict, `some none` a dict without the key. -/
def jsonGet (j : Json) (k : String) : Option (Option Json) :=
  match j with
  | Json.obj kvs => some (lookupLast kvs k)
  | _ => none

def jsonGetD (j : Json) (k : String) (dflt : Json) : Json :=
  match jsonGet j k with
  | some (some v) => v
  | _ => dflt

/-- Python `value == 'PASS'` on the result of a `.get`. -/
def isPassVal : Option Json → Bool
  | some (Json.str s) => s == "PASS"
  | _ => false

/-! ### Serialisation (the "well-formed payload" side of round-tripping) -/

def digitChar : Nat → Char
  | 0 => '0' | 1 => '1' | 2 => '2' | 3 => '3' | 4 => '4'
  | 5 => '5' | 6 => '6' | 7 => '7' | 8 => '8' | _ => '9'

def natToCharsF : Nat → Nat → List Char
  | 0, _ => []
  | _f + 1, n =>
    if n < 10 then [digitChar n]
    else natToCharsF _f (n / 10) ++ [digitChar (n % 10)]

def natToChars (n : Nat) : List Char := natToCharsF (n + 1) n

def intToChars (m : Int) : List Char :=
  if m < 0 then '-' :: natToChars m.natAbs else natToChars m.natAbs

def serNum (m e : Int) : List Char :=
  intToChars m ++ (if e = 0 then [] else 'e' :: intToChars e)

def escChar (c : Char) : List Char :=
  if c = '"' ∨ c = '\\' then ['\\', c] else [c]

def escList : List Char → List Char
  | [] => []
  | c :: cs => escChar c ++ escList cs

def serStr (s : String) : List Char :=
  '"' :: (escList s.data ++ ['"'])

mutual

def serVal : Json → List Char
  | Json.null => "null".data
  | Json.bool true => "true".data
  | Json.bool false => "false".data
  | Json.num m e => serNum m e
  | Json.str s => serStr s
  | Json.arr xs => '[' :: (serArrElems xs ++ [']'])
  | Json.obj kvs => lbraceCh :: (serObjElems kvs ++ [rbraceCh])
termination_by structural x => x

def serArrElems : List Json → List Char
  | [] => []
  | [x] => serVal x
  | x :: y :: xs => serVal x ++ ',' :: serArrElems (y :: xs)
termination_by structural xs => xs

def serObjElems : List (String × Json) → List Char
  | [] => []
  | [(k, v)] => serStr k ++ ':' :: serVal v
  | (k, v) :: m :: kvs => serStr k ++ ':' :: serVal v ++ ',' :: serObjElems (m :: kvs)
termination_by structural kvs => kvs

end

/-! ### The JSON decoder (model of `json.loads`) -/

def charToDigit (c : Char) : Nat := c.toNat - 48

/-- Read a maximal run of digits, returning value, digit count, rest. -/
def readDigits : List Char → Nat → Nat → Nat × Nat × List Char
  | [], acc, k => (acc, k, [])
  | c :: cs, acc, k =>
    if c.isDigit then readDigits cs (acc * 10 + charToDigit c) (k + 1)
    else (acc, k, c :: cs)

def mkSign (neg : Bool) (m : Nat) : Int :=
  if neg then -(m : Int) else (m : Int)

def parseUnsigned (neg : Bool) (cs : List Char) : Option (Json × List Char) :=
  match cs with
  | c :: _ =>
    if c.isDigit then
      let q := readDigits cs 0 0
      let r := match q.2.2 with
        | d :: rest2 =>
          if d = '.' then
            match rest2 with
            | d2 :: _ =>
              if d2.isDigit then
                let fq := readDigits rest2 0 0
                (q.1 * 10 ^ fq.2.1 + fq.1, -(fq.2.1 : Int), fq.2.2)
              else (q.1, (0 : Int), q.2.2)
            | [] => (q.1, (0 : Int), q.2.2)
          else (q.1, (0 : Int), q.2.2)
        | [] => (q.1, (0 : Int), q.2.2)
      match r.2.2 with
      | x :: rest3 =>
        if x = 'e' ∨ x = 'E' then
          let sp := match rest3 with
            | y :: yr => if y = '-' then (true, yr) else if y = '+' then (false, yr) else (false, rest3)
            | [] => (false, rest3)
          match sp.2 with
          | z :: _ =>
            if z.isDigit then
              let ep := readDigits sp.2 0 0
              some (Json.num (mkSign neg r.1)
                      (r.2.1 + (if sp.1 then -(ep.1 : Int) else (ep.1 : Int))), ep.2.2)
            else none
          | [] => none
        else some (Json.num (mkSign neg r.1) r.2.1, r.2.2)
      | [] => some (Json.num (mkSign neg r.1) r.2.1, [])
    else none
  | [] => none

def parseNum (cs : List Char) : Option (Json × List Char) :=
  match cs with
  | c :: rest => if c = '-' then parseUnsigned true rest else parseUnsigned false cs
  | [] => none

def unescChar (c : Char) : Option Char :=
  if c = '"' ∨ c = '\\' ∨ c = '/' then some c
  else if c = 'n' then some '\n'
  else if c = 't' then some '\t'
  else if c = 'r' then some '\r'
  else none

def parseStrBody : List Char → Option (List Char × List Char)
  | [] => none
  | c :: cs =>
    if c = '"' then some ([], cs)
    else if c = '\\' then
      match cs with
      | [] => none
      | e :: cs2 =>
        match unescChar e with
        | none => none
        | some u => (parseStrBody cs2).map (fun pr => (u :: pr.1, pr.2))
    else (parseStrBody cs).map (fun pr => (c :: pr.1, pr.2))

def skipJWs (cs : List Char) : List Char := cs.dropWhile isJWs

mutual

def parseVal : Nat → List Char → Option (Json × List Char)
  | 0, _ => none
  | fuel + 1, cs0 =>
    match skipJWs cs0 with
    | [] => none
    | c :: rest =>
      if c = 'n' then
        if leadsWith "ull".data rest then some (Json.null, rest.drop 3) else none
      else if c = 't' then
        if leadsWith "rue".data rest then some (Json.bool true, rest.drop 3) else none
      else if c = 'f' then
        if leadsWith "alse".data rest then some (Json.bool false, rest.drop 4) else none
      else if c = '"' then
        (parseStrBody rest).map (fun pr => (Json.str (String.mk pr.1), pr.2))
      else if c = '[' then
        match skipJWs rest with
        | d :: rest2 =>
          if d = ']' then some (Json.arr [], rest2)
          else (parseElems fuel (skipJWs rest)).map (fun pr => (Json.arr pr.1, pr.2))
        | [] => none
      else if c = lbraceCh then
        match skipJWs rest with
        | d :: rest2 =>
          if d = rbraceCh then some (Json.obj [], rest2)
          else (parseMembers fuel (skipJWs rest)).map (fun pr => (Json.obj pr.1, pr.2))
        | [] => none
      else if c = '-' ∨ c.isDigit then parseNum (c :: rest)
      else none

def parseElems : Nat → List Char → Option (List Json × List Char)
  | 0, _ => none
  | fuel + 1, cs =>
    match parseVal fuel cs with
    | none => none
    | some (x, rest) =>
      match skipJWs rest with
      | c :: rest2 =>
        if c = ',' then (parseElems fuel rest2).map (fun pr => (x :: pr.1, pr.2))
        else if c = ']' then some ([x], rest2)
        else none
      | [] => none

def parseMembers : Nat → List Char → Option (List (String × Json) × List Char)
  | 0, _ => none
  | fuel + 1, cs =>
    match skipJWs cs with
    | c :: rest =>
      if c = '"' then
        match parseStrBody rest with
        | none => none
        | some (k, rest2) =>
          match skipJWs rest2 with
          | d :: rest3 =>
            if d = ':' then
              match parseVal fuel rest3 with
              | none => none
              | some (v, rest4) =>
                match skipJWs rest4 with
                | e2 :: rest5 =>
                  if e2 = ',' then
                    (parseMembers fuel rest5).map (fun pr => ((String.mk k, v) :: pr.1, pr.2))
                  else if e2 = rbraceCh then some ([(String.mk k, v)], rest5)
                  else none
                | [] => none
            else none
          | [] => none
      else none
    | [] => none

end

/-- Model of `json.loads`: decode one value, insist nothing but
whitespace remains. -/
def jsonLoads (cs : List Char) : Option Json :=
  match parseVal (cs.length + 1) (skipJWs cs) with
  | some (j, rest) => if skipJWs rest = [] then some j else none
  | none => none

/-! ### The critique result parser of `main.py` (`critique_pitch`, lines
182–203) and its fallback record, plus the bare parser of `agent.py`
(`pitch_critic_agent`, lines 271–287). -/

def jsonTag : List Char := ['j', 's', 'o', 'n']

/-- The fence-stripping cleanup performed before `json.loads`. -/
def cleanContent (raw : List Char) : List Char :=
  let c := pyStrip raw
  let c2 :=
    if leadsWith [tick, tick, tick] c then
      let part := (splitOnTicks c).getD 1 []
      if leadsWith jsonTag part then part.drop 4 else part
    else c
  pyStrip c2

def fallbackFeedback (raw : String) : String :=
  "Could not parse critique properly. Raw response: " ++ String.mk (raw.data.take 200)

def critiqueFallback (raw : String) : Json :=
  Json.obj [("overall_score", Json.num 6 0),
            ("decision", Json.str "FAIL"),
            ("feedback", Json.str (fallbackFeedback raw)),
            ("scores", Json.obj []),
            ("strengths", Json.arr []),
            ("weaknesses", Json.arr [Json.str "Needs improvement"])]

/-- `critique_pitch`'s extraction step: strip an optional fenced block,
decode, and on decode failure return the sentinel record. -/
def critique_parse (raw : String) : Json :=
  match jsonLoads (cleanContent raw.data) with
  | some j => j
  | none => critiqueFallback raw

/-- `pitch_critic_agent`'s extraction: a bare `json.loads` with a smaller
fallback record and no fence stripping. -/
def agent_critique_parse (raw : String) : Json :=
  match jsonLoads raw.data with
  | some j => j
  | none => Json.obj [("overall_score", Json.num 5 0),
                      ("decision", Json.str "FAIL"),
                      ("feedback", Json.str raw)]

/-! ### Session data model of the step-wise service (`main.py`) -/

inductive SessionStatus where
  | INITIALIZED | CONTEXT_GATHERED | PITCH_GENERATED | PITCH_CRITIQUED
  | AWAITING_APPROVAL | REFINING | APPROVED | COMPLETED | MAX_ITERATIONS_REACHED
deriving DecidableEq

def statusText : SessionStatus → String
  | SessionStatus.INITIALIZED => "initialized"
  | SessionStatus.CONTEXT_GATHERED => "context_gathered"
  | SessionStatus.PITCH_GENERATED => "pitch_generated"
  | SessionStatus.PITCH_CRITIQUED => "pitch_critiqued"
  | SessionStatus.AWAITING_APPROVAL => "awaiting_approval"
  | SessionStatus.REFINING => "refining"
  | SessionStatus.APPROVED => "approved"
  | SessionStatus.COMPLETED => "completed"
  | SessionStatus.MAX_ITERATIONS_REACHED => "max_iterations_reached"

/-- The per-session record kept in the in-memory store. -/
structure Session where
  mvp_description : String
  context : String
  pitch : String
  critique : Json
  iteration_count : Nat
  critic_fail_count : Nat
  status : SessionStatus
  final_pitch : Option Json
  created_at : String

structure ApprovalDecision where
  approved : Bool
  feedback : String

/-- Python-side failures: a raised generation/transport error, or the
`AttributeError` from calling `.get` on a non-dict critique. -/
inductive PyErr where
  | gen : String → PyErr
  | attr : PyErr

/-- The opaque external collaborators.  `critic` returns the raw text of
the critique call (its extraction is `critique_parse`); `final` models
`prepare_final_pitch`, whose own parse falls back internally and whose
only failure mode is the generation call. -/
structure Env where
  gather_context : String → Except PyErr String
  generate_pitch : String → String → Except PyErr String
  critic : String → Except PyErr String
  refine : String → Json → String → Except PyErr String
  final : String → String → Except PyErr Json

/-- `critique_pitch`: one generation call, then extraction. -/
def critique_pitch (env : Env) (pitch : String) : Except PyErr Json :=
  (env.critic pitch).map critique_parse

/-- Observable stage executions of one request. -/
inductive Event where
  | evaluated : Json → Event
  | refined : String → Event
  | packaged : Event

def evCount (ev : List Event) : Nat :=
  ev.countP (fun e => match e with | Event.evaluated _ => true | _ => false)

def refCount (ev : List Event) : Nat :=
  ev.countP (fun e => match e with | Event.refined _ => true | _ => false)

/-- The JSON body an endpoint returns (only fields some endpoint sets). -/
structure ApiResponse where
  session_id : String
  status : SessionStatus
  pitch : Option String
  critique : Option Json
  iteration_count : Option Nat
  critic_decision : Option String
  critic_fail_count : Option Nat
  final_pitch_package : Option Json
  total_iterations : Option Nat
  message : String

inductive ApiError where
  | http : Nat → String → ApiError
  | py : PyErr → ApiError

/-! ### `_run_critique_refine_loop` (`main.py` lines 353–421) -/

def max_auto_refine_attempts : Nat := 3

abbrev LoopResult := Except (PyErr × Session × List Event) (Session × ApiResponse × List Event)

/-- Return taken when the `while` condition already fails (the code's
"should never be reached" tail). -/
def loopFallThrough (sid : String) (s : Session) : Session × ApiResponse × List Event :=
  let s1 := { s with status := SessionStatus.AWAITING_APPROVAL }
  (s1, ⟨sid, s1.status, some s1.pitch, some s1.critique, some s1.iteration_count,
        some "FAIL", none, none, none,
        "Max refinement attempts reached. Please review."⟩, [])

def passResponse (sid : String) (s : Session) (critique : Json) : ApiResponse :=
  ⟨sid, s.status, some s.pitch, some critique, some s.iteration_count, some "PASS",
   none, none, none,
   "Pitch PASSED critic review (iteration " ++ toString s.iteration_count
     ++ ")! Please review and approve."⟩

def failMaxResponse (sid : String) (s : Session) (critique : Json) : ApiResponse :=
  ⟨sid, s.status, some s.pitch, some critique, some s.iteration_count, some "FAIL",
   some s.critic_fail_count, none, none,
   "Pitch failed critic review " ++ toString s.critic_fail_count
     ++ " times. Auto-refinement complete. Please review and decide whether to approve or manually refine."⟩

/-- Fuelled encoding of the `while session['critic_fail_count'] < 3`
loop; the wrapper below supplies exactly the fuel the loop can consume,
since every continuing iteration increments `critic_fail_count`. -/
def loopAux (env : Env) (sid : String) : Nat → Session → LoopResult
  | 0, s => Except.ok (loopFallThrough sid s)
  | fuel + 1, s =>
    if s.critic_fail_count < max_auto_refine_attempts then
      match critique_pitch env s.pitch with
      | Except.error e => Except.error (e, s, [])
      | Except.ok critique =>
        let s1 := { s with critique := critique, iteration_count := s.iteration_count + 1 }
        match jsonGet critique "decision" with
        | none => Except.error (PyErr.attr, s1, [Event.evaluated critique])
        | some dec =>
          if isPassVal dec then
            let s2 := { s1 with status := SessionStatus.AWAITING_APPROVAL }
            Except.ok (s2, passResponse sid s2 critique, [Event.evaluated critique])
          else
            let s2 := { s1 with critic_fail_count := s1.critic_fail_count + 1 }
            if max_auto_refine_attempts ≤ s2.critic_fail_count then
              let s3 := { s2 with status := SessionStatus.AWAITING_APPROVAL }
              Except.ok (s3, failMaxResponse sid s3 critique, [Event.evaluated critique])
            else
              let s3 := { s2 with status := SessionStatus.REFINING }
              let note := "Auto-refinement attempt " ++ toString s3.critic_fail_count
              match env.refine s3.pitch critique note with
              | Except.error e => Except.error (e, s3, [Event.evaluated critique])
              | Except.ok newPitch =>
                let s4 := { s3 with pitch := newPitch }
                match loopAux env sid fuel s4 with
                | Except.ok (s', r, ev) =>
                  Except.ok (s', r, Event.evaluated critique :: Event.refined note :: ev)
                | Except.error (e, s', ev) =>
                  Except.error (e, s', Event.evaluated critique :: Event.refined note :: ev)
    else Except.ok (loopFallThrough sid s)

def run_critique_refine_loop (env : Env) (sid : String) (s : Session) : LoopResult :=
  loopAux env sid (max_auto_refine_attempts - s.critic_fail_count) s

/-! ### `approve_pitch` (`main.py` lines 423–487) -/

abbrev EndpointResult := Except (ApiError × Session × List Event) (Session × ApiResponse × List Event)

def maxIterResponse (sid : String) (s : Session) : ApiResponse :=
  ⟨sid, SessionStatus.MAX_ITERATIONS_REACHED, some s.pitch, some s.critique,
   none, none, none, none, none,
   "Maximum 10 total iterations reached. Please approve current pitch or start a new session."⟩

def approvedResponse (sid : String) (s : Session) (pkg : Json) : ApiResponse :=
  ⟨sid, SessionStatus.COMPLETED, none, none, none, none, none, some pkg,
   some s.iteration_count, "Pitch approved! Final package ready."⟩

/-- Re-enter the loop, recording the manual refine and lifting its
errors to endpoint errors. -/
def liftLoop (e0 : Event) (r : LoopResult) : EndpointResult :=
  match r with
  | Except.ok (s, resp, ev) => Except.ok (s, resp, e0 :: ev)
  | Except.error (pe, s, ev) => Except.error (ApiError.py pe, s, e0 :: ev)

def approve_pitch (env : Env) (sid : String) (s : Session) (d : ApprovalDecision) : EndpointResult :=
  if s.status ≠ SessionStatus.AWAITING_APPROVAL then
    Except.error (ApiError.http 400
      ("Cannot approve/reject. Current status: " ++ statusText s.status), s, [])
  else if 10 ≤ s.iteration_count ∧ d.approved = false then
    Except.ok (s, maxIterResponse sid s, [])
  else if d.approved then
    let s1 := { s with status := SessionStatus.APPROVED }
    match env.final s1.pitch d.feedback with
    | Except.error e => Except.error (ApiError.py e, s1, [])
    | Except.ok pkg =>
      let s2 := { s1 with final_pitch := some pkg, status := SessionStatus.COMPLETED }
      Except.ok (s2, approvedResponse sid s2 pkg, [Event.packaged])
  else
    let s1 := { s with status := SessionStatus.REFINING }
    match env.refine s1.pitch s1.critique d.feedback with
    | Except.error e => Except.error (ApiError.py e, s1, [])
    | Except.ok newPitch =>
      let s2 := { s1 with pitch := newPitch, critic_fail_count := 0 }
      liftLoop (Event.refined d.feedback) (run_critique_refine_loop env sid s2)

/-! ### Read endpoints, store, start, list, delete -/

structure StatusResponse where
  session_id : String
  status : SessionStatus
  iteration_count : Nat
  critic_fail_count : Nat
  current_pitch : String
  critique : Json
  final_pitch : Option Json
  created_at : String

def get_status (sid : String) (s : Session) : StatusResponse :=
  ⟨sid, s.status, s.iteration_count, s.critic_fail_count, s.pitch, s.critique,
   s.final_pitch, s.created_at⟩

structure FinalResponse where
  session_id : String
  final_pitch_package : Option Json
  total_iterations : Nat
  mvp_description : String
  created_at : String
  final_critique_score : Json

def get_final_pitch (sid : String) (s : Session) : Except ApiError FinalResponse :=
  if s.status ≠ SessionStatus.COMPLETED then
    Except.error (ApiError.http 400
      ("Final pitch not ready. Current status: " ++ statusText s.status))
  else
    Except.ok ⟨sid, s.final_pitch, s.iteration_count, s.mvp_description, s.created_at,
               jsonGetD s.critique "overall_score" (Json.num 0 0)⟩

abbrev Store := List (String × Session)

def storeSet : Store → String → Session → Store
  | [], sid, s => [(sid, s)]
  | (k, v) :: rest, sid, s =>
    if k = sid then (sid, s) :: rest else (k, v) :: storeSet rest sid s

def storeGet (store : Store) (sid : String) : Option Session :=
  (store.find? (fun p => p.1 == sid)).map (fun p => p.2)

def initialSession (mvp ctx pitch now : String) : Session :=
  ⟨mvp, ctx, pitch, Json.obj [], 0, 0, SessionStatus.PITCH_GENERATED, none, now⟩

abbrev StartResult := Except (ApiError × Store × List Event) (Store × ApiResponse × List Event)

/-- `start_pitch_workflow`: gather context, draft, insert the session,
then run the critique/refine loop on it.  In-place dict mutation means a
loop failure leaves the partly advanced session in the store. -/
def start_pitch_workflow (env : Env) (sid now : String) (store : Store) (mvp : String) : StartResult :=
  match env.gather_context mvp with
  | Except.error e => Except.error (ApiError.py e, store, [])
  | Except.ok ctx =>
    match env.generate_pitch mvp ctx with
    | Except.error e => Except.error (ApiError.py e, store, [])
    | Except.ok pitch =>
      let s0 := initialSession mvp ctx pitch now
      let store1 := storeSet store sid s0
      match run_critique_refine_loop env sid s0 with
      | Except.ok (s', r, ev) => Except.ok (storeSet store1 sid s', r, ev)
      | Except.error (e, s', ev) => Except.error (ApiError.py e, storeSet store1 sid s', ev)

structure SessionSummary where
  session_id : String
  status : SessionStatus
  iteration_count : Nat
  created_at : String

def list_sessions (store : Store) : Nat × List SessionSummary :=
  (store.length,
   store.map (fun p => ⟨p.1, p.2.status, p.2.iteration_count, p.2.created_at⟩))

def delete_session (store : Store) (sid : String) : Except ApiError (Store × String) :=
  if (store.find? (fun p => p.1 == sid)).isSome then
    Except.ok (store.filter (fun p => p.1 != sid), "Session deleted successfully")
  else Except.error (ApiError.http 404 "Session not found")

/-! ### Request traces against one session -/

inductive Op where
  | gate : ApprovalDecision → Op
  | statusQuery : Op
  | finalQuery : Op

/-- The stored session after one request: endpoint failures keep the
in-place mutations made before the raise; reads change nothing. -/
def applyOp (env : Env) (sid : String) (s : Session) : Op → Session
  | Op.gate d =>
    match approve_pitch env sid s d with
    | Except.ok (s', _, _) => s'
    | Except.error (_, s', _) => s'
  | Op.statusQuery => s
  | Op.finalQuery => s

def applyOps (env : Env) (sid : String) (s : Session) (ops : List Op) : Session :=
  ops.foldl (applyOp env sid) s

/-! ### `route_after_critic` of the batch graph (`agent.py` lines 412–425) -/

structure PitchState where
  mvp_description : String
  context : String
  pitch : String
  critique : Json
  critique_count : Nat
  human_feedback : String
  human_approved : Bool
  final_pitch : String

/-- `route_after_critic`; `none` models the `AttributeError` raised by
`state['critique'].get` when the critique is not a dict. -/
def route_after_critic (st : PitchState) : Option String :=
  match st.critique with
  | Json.obj kvs =>
    let dec := (lookupLast kvs "decision").getD (Json.str "FAIL")
    some (if 5 ≤ st.critique_count then "human_review"
          else if isPassVal (some dec) then "human_review"
          else "refiner")
  | _ => none

/-! ### Projections of a loop result (used to state invariants) -/

def resultSession : LoopResult → Session
  | Except.ok (s, _, _) => s
  | Except.error (_, s, _) => s

def resultEvents : LoopResult → List Event
  | Except.ok (_, _, ev) => ev
  | Except.error (_, _, ev) => ev

/-! ### Concrete environments and sessions used to exercise the model -/

def failJsonStr : String := "\x7b\"decision\":\"FAIL\"\x7d"
def passJsonStr : String := "\x7b\"decision\":\"PASS\"\x7d"
def failCrit : Json := Json.obj [("decision", Json.str "FAIL")]
def passCrit : Json := Json.obj [("decision", Json.str "PASS")]

/-- Every generation call succeeds; the critic always answers FAIL. -/
def exEnvFail : Env :=
  ⟨fun _ => Except.ok "ctx", fun _ _ => Except.ok "draft0",
   fun _ => Except.ok failJsonStr, fun _ _ _ => Except.ok "refined",
   fun _ _ => Except.ok (Json.obj [])⟩

/-- Every generation call succeeds; the critic always answers PASS. -/
def exEnvPass : Env :=
  ⟨fun _ => Except.ok "ctx", fun _ _ => Except.ok "draft0",
   fun _ => Except.ok passJsonStr, fun _ _ _ => Except.ok "refined",
   fun _ _ => Except.ok (Json.obj [])⟩

/-- The refine call raises; everything else succeeds. -/
def exEnvRefineFail : Env :=
  ⟨fun _ => Except.ok "ctx", fun _ _ => Except.ok "draft0",
   fun _ => Except.ok failJsonStr, fun _ _ _ => Except.error (PyErr.gen "boom"),
   fun _ _ => Except.ok (Json.obj [])⟩

/-- The critic call raises; context and draft succeed. -/
def exEnvCriticFail : Env :=
  ⟨fun _ => Except.ok "ctx", fun _ _ => Except.ok "draft0",
   fun _ => Except.error (PyErr.gen "critboom"), fun _ _ _ => Except.ok "refined",
   fun _ _ => Except.ok (Json.obj [])⟩

/-- The packaging call raises; everything else succeeds. -/
def exEnvFinalFail : Env :=
  ⟨fun _ => Except.ok "ctx", fun _ _ => Except.ok "draft0",
   fun _ => Except.ok passJsonStr, fun _ _ _ => Except.ok "refined",
   fun _ _ => Except.error (PyErr.gen "pkgboom")⟩

/-- The context-gathering call raises. -/
def exEnvCtxFail : Env :=
  ⟨fun _ => Except.error (PyErr.gen "ctxboom"), fun _ _ => Except.ok "draft0",
   fun _ => Except.ok passJsonStr, fun _ _ _ => Except.ok "refined",
   fun _ _ => Except.ok (Json.obj [])⟩

/-- The draft-generation call raises; context succeeds. -/
def exEnvDraftFail : Env :=
  ⟨fun _ => Except.ok "ctx", fun _ _ => Except.error (PyErr.gen "draftboom"),
   fun _ => Except.ok passJsonStr, fun _ _ _ => Except.ok "refined",
   fun _ _ => Except.ok (Json.obj [])⟩

def rejD : ApprovalDecision := ⟨false, "add metrics"⟩

/-- The session `start` produces under `exEnvPass`. -/
def exSessionPass1 : Session :=
  ⟨"mvp", "ctx", "draft0", passCrit, 1, 0, SessionStatus.AWAITING_APPROVAL, none, "t"⟩

/-- The session reached under `exEnvFail` after `start` and two gate
rejections: nine evaluations so far, at the human gate. -/
def exSessionNine : Session :=
  ⟨"mvp", "ctx", "refined", failCrit, 9, 3, SessionStatus.AWAITING_APPROVAL, none, "t"⟩

/-- A session sitting at the human gate. -/
def exSessionGate : Session :=
  ⟨"mvp", "ctx", "p", failCrit, 2, 3, SessionStatus.AWAITING_APPROVAL, none, "t"⟩

/-- A completed session holding a final package. -/
def exSessionDone : Session :=
  ⟨"mvp", "ctx", "p", passCrit, 4, 0, SessionStatus.COMPLETED, some (Json.obj []), "t"⟩

/-- Session stored after a gate request, successful or not. -/
def endSession : EndpointResult → Session
  | Except.ok (s, _, _) => s
  | Except.error (_, s, _) => s

def endEvents : EndpointResult → List Event
  | Except.ok (_, _, ev) => ev
  | Except.error (_, _, ev) => ev

/-- The critic call always succeeds and its extraction yields a dict
whose decision is not the string PASS. -/
def alwaysFailCritic (env : Env) : Prop :=
  ∀ p, ∃ raw kvs, env.critic p = Except.ok raw ∧ critique_parse raw = Json.obj kvs ∧
    isPassVal (lookupLast kvs "decision") = false

/-- The refine call always succeeds. -/
def alwaysRefines (env : Env) : Prop :=
  ∀ p c fb, ∃ q, env.refine p c fb = Except.ok q

/-- The session a `start` request leaves in the store, whether the
request succeeded or raised midway. -/
def startStoredSession (r : StartResult) (sid : String) : Option Session :=
  match r with
  | Except.ok (st, _, _) => storeGet st sid
  | Except.error (_, st, _) => storeGet st sid

/-- Stored session after `start` under `exEnvFail`: three failed
evaluations, at the human gate. -/
def exSessionStart3 : Session :=
  ⟨"mvp", "ctx", "refined", failCrit, 3, 3, SessionStatus.AWAITING_APPROVAL, none, "t"⟩

/-- A gate session whose total iteration count has reached the ceiling. -/
def exSessionTen : Session :=
  ⟨"mvp", "ctx", "refined", failCrit, 10, 3, SessionStatus.AWAITING_APPROVAL, none, "t"⟩

/-- Stored session under `exEnvPass` after `start` and ten rejections. -/
def exSessionPassTen : Session :=
  ⟨"mvp", "ctx", "refined", passCrit, 10, 0, SessionStatus.AWAITING_APPROVAL, none, "t"⟩

/-! ### Fuel measure for the decoder and the serialisation wrapper -/

mutual

/-- Enough decoder fuel to read back a serialised value. -/
def jsize : Json → Nat
  | Json.null => 1
  | Json.bool _ => 1
  | Json.num _ _ => 1
  | Json.str _ => 1
  | Json.arr xs => 1 + jsizeA xs
  | Json.obj kvs => 1 + jsizeO kvs
termination_by structural x => x

def jsizeA : List Json → Nat
  | [] => 1
  | x :: xs => 1 + max (jsize x) (jsizeA xs)
termination_by structural xs => xs

def jsizeO : List (String × Json) → Nat
  | [] => 1
  | (_, v) :: kvs => 1 + max (jsize v) (jsizeO kvs)
termination_by structural kvs => kvs

end

/-- What may legally follow a serialised number without extending it. -/
def numSafe (rest : List Char) : Prop :=
  ∀ c, rest.head? = some c → c.isDigit = false ∧ c ≠ 'e' ∧ c ≠ 'E' ∧ c ≠ '.'

/-- The well-formed payload of the round-trip law, as a string. -/
def serialize (x : Json) : String := String.mk (serVal x)

/-- A fenced copy of a payload, as the critic often emits it. -/
def fenced (x : Json) : String :=
  String.mk ([tick, tick, tick] ++ serVal x ++ [tick, tick, tick])

/-- A fenced copy with the `json` tag line. -/
def fencedTagged (x : Json) : String :=
  String.mk ([tick, tick, tick] ++ jsonTag ++ '\n' :: serVal x
    ++ [tick, tick, tick])

/-- A concrete well-formed critique payload, backtick-free. -/
def exPayload : Json :=
  Json.obj [("overall_score", Json.num 75 (-1)),
            ("decision", Json.str "PASS"),
            ("feedback", Json.str "good hook")]

/-! ## Invariant lemmas about the critique/refine loop -/

@[simp]
theorem evCount_nil : evCount [] = 0 := rfl

@[simp]
theorem evCount_cons_eval (c : Json) (ev : List Event) :
    evCount (Event.evaluated c :: ev) = evCount ev + 1 := by
  simp [evCount, List.countP_cons]

@[simp]
theorem evCount_cons_refined (fb : String) (ev : List Event) :
    evCount (Event.refined fb :: ev) = evCount ev := by
  simp [evCount, List.countP_cons]

@[simp]
theorem evCount_cons_packaged (ev : List Event) :
    evCount (Event.packaged :: ev) = evCount ev := by
  simp [evCount, List.countP_cons]

/-- Each pass of the loop adds exactly one evaluation to the counter,
never touches the final package, and the number of evaluations one call
performs is bounded by the fuel. -/
theorem loopAux_invariant (env : Env) (sid : String) :
    ∀ fuel s,
      (resultSession (loopAux env sid fuel s)).iteration_count
          = s.iteration_count + evCount (resultEvents (loopAux env sid fuel s)) ∧
      (resultSession (loopAux env sid fuel s)).final_pitch = s.final_pitch ∧
      evCount (resultEvents (loopAux env sid fuel s)) ≤ fuel := by
  intro fuel
  induction fuel with
  | zero =>
    intro s
    simp [loopAux, resultSession, resultEvents, loopFallThrough]
  | succ f ih =>
    intro s
    by_cases hlt : s.critic_fail_count < max_auto_refine_attempts
    · rw [loopAux, if_pos hlt]
      cases hc : critique_pitch env s.pitch with
      | error e =>
        simp [resultSession, resultEvents]
      | ok critique =>
        cases hd : jsonGet critique "decision" with
        | none =>
          simp [hd, resultSession, resultEvents]
        | some dec =>
          simp only [hd]
          by_cases hp : isPassVal dec = true
          · simp [hp, resultSession, resultEvents]
          · simp only [Bool.not_eq_true] at hp
            simp only [hp, Bool.false_eq_true, if_false]
            by_cases hmax : max_auto_refine_attempts ≤ s.critic_fail_count + 1
            · simp [hmax, resultSession, resultEvents]
            · simp only [if_neg hmax]
              cases hr : env.refine s.pitch critique
                  ("Auto-refinement attempt " ++ toString (s.critic_fail_count + 1)) with
              | error e =>
                simp [resultSession, resultEvents]
              | ok newPitch =>
                have h4 := ih { s with critique := critique,
                                       iteration_count := s.iteration_count + 1,
                                       critic_fail_count := s.critic_fail_count + 1,
                                       status := SessionStatus.REFINING,
                                       pitch := newPitch }
                cases hl : loopAux env sid f
                    { s with critique := critique,
                             iteration_count := s.iteration_count + 1,
                             critic_fail_count := s.critic_fail_count + 1,
                             status := SessionStatus.REFINING,
                             pitch := newPitch } with
                | ok t =>
                  obtain ⟨s', r, ev⟩ := t
                  rw [hl] at h4
                  simp only [resultSession, resultEvents] at h4
                  obtain ⟨h41, h42, h43⟩ := h4
                  simp only [hl, resultSession, resultEvents, evCount_cons_eval,
                             evCount_cons_refined]
                  refine ⟨by omega, by simpa using h42, by omega⟩
                | error t =>
                  obtain ⟨e, s', ev⟩ := t
                  rw [hl] at h4
                  simp only [resultSession, resultEvents] at h4
                  obtain ⟨h41, h42, h43⟩ := h4
                  simp only [hl, resultSession, resultEvents, evCount_cons_eval,
                             evCount_cons_refined]
                  refine ⟨by omega, by simpa using h42, by omega⟩
    · rw [loopAux, if_neg hlt]
      simp [resultSession, resultEvents, loopFallThrough]


/-- The loop invariant transported to the fuel-supplying wrapper. -/
theorem run_loop_invariant (env : Env) (sid : String) (s : Session) :
    (resultSession (run_critique_refine_loop env sid s)).iteration_count
        = s.iteration_count + evCount (resultEvents (run_critique_refine_loop env sid s)) ∧
    (resultSession (run_critique_refine_loop env sid s)).final_pitch = s.final_pitch ∧
    evCount (resultEvents (run_critique_refine_loop env sid s)) ≤ max_auto_refine_attempts := by
  have h := loopAux_invariant env sid (max_auto_refine_attempts - s.critic_fail_count) s
  exact ⟨h.1, h.2.1, le_trans h.2.2 (Nat.sub_le _ _)⟩

theorem run_loop_ok_spec (env : Env) (sid : String) (s s' : Session) (r : ApiResponse)
    (ev : List Event) (h : run_critique_refine_loop env sid s = Except.ok (s', r, ev)) :
    s'.iteration_count = s.iteration_count + evCount ev ∧
    s'.final_pitch = s.final_pitch ∧ evCount ev ≤ max_auto_refine_attempts := by
  have hi := run_loop_invariant env sid s
  rw [h] at hi
  simpa [resultSession, resultEvents] using hi

theorem run_loop_error_spec (env : Env) (sid : String) (s s' : Session) (e : PyErr)
    (ev : List Event) (h : run_critique_refine_loop env sid s = Except.error (e, s', ev)) :
    s'.iteration_count = s.iteration_count + evCount ev ∧
    s'.final_pitch = s.final_pitch ∧ evCount ev ≤ max_auto_refine_attempts := by
  have hi := run_loop_invariant env sid s
  rw [h] at hi
  simpa [resultSession, resultEvents] using hi

/-- Entering the loop with the fail counter already at the limit skips
the `while` body entirely: straight to the gate, no stage runs. -/
theorem run_loop_skip (env : Env) (sid : String) (s : Session)
    (h : max_auto_refine_attempts ≤ s.critic_fail_count) :
    run_critique_refine_loop env sid s = Except.ok (loopFallThrough sid s) := by
  unfold run_critique_refine_loop
  rw [Nat.sub_eq_zero_of_le h]
  rfl

/-- Under an always-failing critic and total refiner, a loop invocation
whose fuel matches the fail counter performs exactly `fuel` evaluations
and lands at the human gate with the fail counter at the limit. -/
theorem loopAux_allfail (env : Env) (sid : String)
    (hc : alwaysFailCritic env) (hr : alwaysRefines env) :
    ∀ fuel s, s.critic_fail_count + fuel = max_auto_refine_attempts →
      ∃ s' r ev, loopAux env sid fuel s = Except.ok (s', r, ev) ∧
        s'.status = SessionStatus.AWAITING_APPROVAL ∧
        s'.iteration_count = s.iteration_count + fuel ∧
        evCount ev = fuel ∧
        s'.critic_fail_count = max_auto_refine_attempts ∧
        r.status = SessionStatus.AWAITING_APPROVAL ∧
        r.critic_decision = some "FAIL" := by
  intro fuel
  induction fuel with
  | zero =>
    intro s hs
    refine ⟨_, _, _, rfl, ?_⟩
    simp [loopFallThrough]
    omega
  | succ f ih =>
    intro s hs
    have hlt : s.critic_fail_count < max_auto_refine_attempts := by omega
    obtain ⟨raw, kvs, hraw, hparse, hpass⟩ := hc s.pitch
    have hcp : critique_pitch env s.pitch = Except.ok (Json.obj kvs) := by
      rw [critique_pitch, hraw]
      simp [Except.map, hparse]
    rw [loopAux, if_pos hlt]
    simp only [hcp, jsonGet]
    rw [if_neg (by simp [hpass])]
    by_cases hstop : max_auto_refine_attempts ≤ s.critic_fail_count + 1
    · rw [if_pos hstop]
      refine ⟨_, _, _, rfl, ?_⟩
      have hf : f = 0 := by omega
      simp [failMaxResponse, hf]
      omega
    · rw [if_neg hstop]
      obtain ⟨q, hq⟩ := hr s.pitch (Json.obj kvs)
        ("Auto-refinement attempt " ++ toString (s.critic_fail_count + 1))
      simp only [hq]
      obtain ⟨s', r, ev, hok, hst, hcount, hev, hfail, hrs, hrd⟩ :=
        ih { s with critique := Json.obj kvs,
                    iteration_count := s.iteration_count + 1,
                    critic_fail_count := s.critic_fail_count + 1,
                    status := SessionStatus.REFINING,
                    pitch := q } (by simp; omega)
      simp only [hok]
      refine ⟨s', r, _, rfl, hst, ?_, ?_, hfail, hrs, hrd⟩
      · simp at hcount
        omega
      · simp [hev]


/-! ## Session-level lemmas about the gate endpoint -/

theorem applyOp_gate (env : Env) (sid : String) (s : Session) (d : ApprovalDecision) :
    applyOp env sid s (Op.gate d) = endSession (approve_pitch env sid s d) := by
  cases h : approve_pitch env sid s d with
  | ok t => obtain ⟨a, b, c⟩ := t; simp [applyOp, endSession, h]
  | error t => obtain ⟨a, b, c⟩ := t; simp [applyOp, endSession, h]

theorem approve_count_mono (env : Env) (sid : String) (s : Session) (d : ApprovalDecision) :
    s.iteration_count ≤ (endSession (approve_pitch env sid s d)).iteration_count := by
  unfold approve_pitch
  split
  · simp [endSession]
  · split
    · simp [endSession]
    · split
      · dsimp only
        cases hf : env.final s.pitch d.feedback with
        | error e => simp [hf, endSession]
        | ok pkg => simp [hf, endSession]
      · dsimp only
        cases hr : env.refine s.pitch s.critique d.feedback with
        | error e => simp [hr, endSession]
        | ok newPitch =>
          simp only [hr]
          cases hl : run_critique_refine_loop env sid
              { s with status := SessionStatus.REFINING, pitch := newPitch,
                       critic_fail_count := 0 } with
          | ok t =>
            obtain ⟨s', r, ev⟩ := t
            have h := (run_loop_ok_spec env sid _ s' r ev hl).1
            simp at h
            simp [liftLoop, hl, endSession]
            omega
          | error t =>
            obtain ⟨e, s', ev⟩ := t
            have h := (run_loop_error_spec env sid _ s' e ev hl).1
            simp at h
            simp [liftLoop, hl, endSession]
            omega

theorem applyOp_count_mono (env : Env) (sid : String) (s : Session) (op : Op) :
    s.iteration_count ≤ (applyOp env sid s op).iteration_count := by
  cases op with
  | gate d => rw [applyOp_gate]; exact approve_count_mono env sid s d
  | statusQuery => exact le_refl _
  | finalQuery => exact le_refl _

theorem applyOps_count_mono (env : Env) (sid : String) (s : Session) (ops : List Op) :
    s.iteration_count ≤ (applyOps env sid s ops).iteration_count := by
  induction ops generalizing s with
  | nil => exact le_refl _
  | cons op ops ih =>
    exact le_trans (applyOp_count_mono env sid s op) (ih (applyOp env sid s op))

/-! ## Claim theorems -/

/-- C5: `total_iteration_count` is monotonically non-decreasing across any
sequence of gate/read requests against a session; each loop invocation
increments it by exactly the number of evaluation passes it performed, on
success and on mid-request failure alike, and nothing resets it. -/
theorem C5_total_iterations_monotone :
    (∀ (env : Env) (sid : String) (s : Session) (ops : List Op),
        s.iteration_count ≤ (applyOps env sid s ops).iteration_count) ∧
    (∀ (env : Env) (sid : String) (s s' : Session) (r : ApiResponse) (ev : List Event),
        run_critique_refine_loop env sid s = Except.ok (s', r, ev) →
        s'.iteration_count = s.iteration_count + evCount ev) ∧
    (∀ (env : Env) (sid : String) (s s' : Session) (e : PyErr) (ev : List Event),
        run_critique_refine_loop env sid s = Except.error (e, s', ev) →
        s'.iteration_count = s.iteration_count + evCount ev) :=
  ⟨applyOps_count_mono,
   fun env sid s s' r ev h => (run_loop_ok_spec env sid s s' r ev h).1,
   fun env sid s s' e ev h => (run_loop_error_spec env sid s s' e ev h).1⟩

/-- Witness for C5 at a concrete environment and session. -/
theorem C5_total_iterations_monotone_witness :
    exSessionPass1.iteration_count
        ≤ (applyOps exEnvPass "sid" exSessionPass1 [Op.gate rejD]).iteration_count ∧
    exSessionStart3.iteration_count = (initialSession "mvp" "ctx" "draft0" "t").iteration_count
        + evCount [Event.evaluated failCrit, Event.refined "Auto-refinement attempt 1",
                   Event.evaluated failCrit, Event.refined "Auto-refinement attempt 2",
                   Event.evaluated failCrit] := by
  constructor
  · exact C5_total_iterations_monotone.1 exEnvPass "sid" exSessionPass1 [Op.gate rejD]
  · exact C5_total_iterations_monotone.2.1 exEnvFail "sid"
      (initialSession "mvp" "ctx" "draft0" "t") exSessionStart3
      (failMaxResponse "sid" exSessionStart3 failCrit)
      [Event.evaluated failCrit, Event.refined "Auto-refinement attempt 1",
       Event.evaluated failCrit, Event.refined "Auto-refinement attempt 2",
       Event.evaluated failCrit] rfl

/-- C7: a gate request against a session not at the human gate, and a
final-package query against a session not completed, both fail with the
400 precondition error and leave the session untouched. -/
theorem C7_wrong_status_precondition :
    (∀ (env : Env) (sid : String) (s : Session) (d : ApprovalDecision),
        s.status ≠ SessionStatus.AWAITING_APPROVAL →
        approve_pitch env sid s d = Except.error
          (ApiError.http 400 ("Cannot approve/reject. Current status: " ++ statusText s.status),
           s, [])) ∧
    (∀ (sid : String) (s : Session),
        s.status ≠ SessionStatus.COMPLETED →
        get_final_pitch sid s = Except.error
          (ApiError.http 400 ("Final pitch not ready. Current status: " ++ statusText s.status))) := by
  constructor
  · intro env sid s d h
    unfold approve_pitch
    rw [if_pos h]
  · intro sid s h
    unfold get_final_pitch
    rw [if_pos h]

/-- Witness for C7: a freshly drafted session (status `pitch_generated`)
rejects both a gate decision and a final query. -/
theorem C7_wrong_status_precondition_witness :
    approve_pitch exEnvPass "sid" (initialSession "m" "c" "p" "t") rejD
        = Except.error
            (ApiError.http 400 ("Cannot approve/reject. Current status: "
               ++ statusText (initialSession "m" "c" "p" "t").status),
             initialSession "m" "c" "p" "t", []) ∧
    get_final_pitch "sid" (initialSession "m" "c" "p" "t")
        = Except.error
            (ApiError.http 400 ("Final pitch not ready. Current status: "
               ++ statusText (initialSession "m" "c" "p" "t").status)) :=
  ⟨C7_wrong_status_precondition.1 exEnvPass "sid" (initialSession "m" "c" "p" "t") rejD
      (by decide),
   C7_wrong_status_precondition.2 "sid" (initialSession "m" "c" "p" "t") (by decide)⟩


/-- C1 is refuted as stated: the evaluate/refine loop never consults the
hard ceiling, so a session whose total iteration count has reached 9 at
the gate runs three further evaluations inside a single rejection
request — two of them while the count is already at or above 10 — ending
at 12.  The first two conjuncts show the session is reached from `start`
by two rejections under an always-FAIL critic. -/
theorem C1_counterexample :
    startStoredSession (start_pitch_workflow exEnvFail "sid" "t" [] "mvp") "sid"
        = some exSessionStart3 ∧
    applyOps exEnvFail "sid" exSessionStart3 (List.replicate 2 (Op.gate rejD))
        = exSessionNine ∧
    exSessionNine.iteration_count = 9 ∧
    (endSession (approve_pitch exEnvFail "sid" exSessionNine rejD)).iteration_count = 12 ∧
    evCount (endEvents (approve_pitch exEnvFail "sid" exSessionNine rejD)) = 3 :=
  ⟨rfl, rfl, rfl, rfl, rfl⟩

/-- C1 (amended): the hard ceiling is enforced only at the gate-request
boundary — there a rejection against a session with at least 10 total
iterations is hard-stopped no matter what the stored evaluation decision
or fail counter is, with the session unchanged and no stage executed —
while within a single request the loop runs at most
`max_auto_refine_attempts` further evaluations, so the count can
overshoot the ceiling by at most that much. -/
theorem C1_amended :
    (∀ (env : Env) (sid : String) (s : Session) (d : ApprovalDecision),
        s.status = SessionStatus.AWAITING_APPROVAL →
        10 ≤ s.iteration_count →
        d.approved = false →
        approve_pitch env sid s d = Except.ok (s, maxIterResponse sid s, [])) ∧
    (∀ (env : Env) (sid : String) (s : Session),
        evCount (resultEvents (run_critique_refine_loop env sid s))
          ≤ max_auto_refine_attempts) := by
  constructor
  · intro env sid s d h1 h2 h3
    unfold approve_pitch
    rw [if_neg (by simp [h1]), if_pos ⟨h2, h3⟩]
  · intro env sid s
    exact (run_loop_invariant env sid s).2.2

/-- Witness for the amended C1 at a gate session with count 10. -/
theorem C1_amended_witness :
    approve_pitch exEnvFail "sid" exSessionTen rejD
        = Except.ok (exSessionTen, maxIterResponse "sid" exSessionTen, []) ∧
    evCount (resultEvents (run_critique_refine_loop exEnvFail "sid" exSessionTen))
        ≤ max_auto_refine_attempts :=
  ⟨C1_amended.1 exEnvFail "sid" exSessionTen rejD rfl (by decide) rfl,
   C1_amended.2 exEnvFail "sid" exSessionTen⟩

/-- C3 is refuted as stated: under an always-PASS critic, `start` and
ten consecutive rejections leave the stored session at ten iterations
with status still `awaiting_approval` — the stored status never becomes
`max_iterations_reached`; the ceiling response merely labels itself so.
An eleventh rejection is answered with the precondition message and
changes nothing. -/
theorem C3_counterexample :
    startStoredSession (start_pitch_workflow exEnvPass "sid" "t" [] "mvp") "sid"
        = some exSessionPass1 ∧
    applyOps exEnvPass "sid" exSessionPass1 (List.replicate 10 (Op.gate rejD))
        = exSessionPassTen ∧
    exSessionPassTen.status = SessionStatus.AWAITING_APPROVAL ∧
    exSessionPassTen.status ≠ SessionStatus.MAX_ITERATIONS_REACHED ∧
    exSessionPassTen.iteration_count = 10 ∧
    approve_pitch exEnvPass "sid" exSessionPassTen rejD
        = Except.ok (exSessionPassTen, maxIterResponse "sid" exSessionPassTen, []) ∧
    (applyOp exEnvPass "sid" exSessionPassTen (Op.gate rejD)).status
        = SessionStatus.AWAITING_APPROVAL :=
  ⟨rfl, rfl, rfl, by decide, rfl, rfl, rfl⟩

/-- C3 (amended): once the stored count has reached 10, a further
rejection is answered — without running any refine or evaluate stage and
without touching the session — by a response labelled
`max_iterations_reached` carrying the message that prompts approval or a
new session; the stored status remains `awaiting_approval`, so approving
the current draft still works whenever the packaging call succeeds. -/
theorem C3_amended :
    ∀ (env : Env) (sid : String) (s : Session) (d : ApprovalDecision),
      s.status = SessionStatus.AWAITING_APPROVAL →
      10 ≤ s.iteration_count →
      d.approved = false →
      approve_pitch env sid s d = Except.ok (s, maxIterResponse sid s, []) ∧
      (maxIterResponse sid s).status = SessionStatus.MAX_ITERATIONS_REACHED ∧
      (maxIterResponse sid s).message
        = "Maximum 10 total iterations reached. Please approve current pitch or start a new session." ∧
      (applyOp env sid s (Op.gate d)).status = SessionStatus.AWAITING_APPROVAL ∧
      (∀ fb pkg, env.final s.pitch fb = Except.ok pkg →
        approve_pitch env sid s ⟨true, fb⟩
            = Except.ok ({ s with status := SessionStatus.COMPLETED,
                                  final_pitch := some pkg },
                approvedResponse sid
                  { s with status := SessionStatus.COMPLETED, final_pitch := some pkg } pkg,
                [Event.packaged])) := by
  intro env sid s d h1 h2 h3
  have hmain : approve_pitch env sid s d = Except.ok (s, maxIterResponse sid s, []) := by
    unfold approve_pitch
    rw [if_neg (by simp [h1]), if_pos ⟨h2, h3⟩]
  refine ⟨hmain, rfl, rfl, ?_, ?_⟩
  · rw [applyOp_gate, hmain]
    simpa [endSession] using h1
  · intro fb pkg hf
    unfold approve_pitch
    rw [if_neg (by simp [h1]), if_neg (by simp), if_pos rfl]
    dsimp only
    rw [hf]

/-- Witness for the amended C3 at the concrete ten-iteration session. -/
theorem C3_amended_witness :
    approve_pitch exEnvPass "sid" exSessionPassTen rejD
        = Except.ok (exSessionPassTen, maxIterResponse "sid" exSessionPassTen, []) ∧
    approve_pitch exEnvPass "sid" exSessionPassTen ⟨true, "fb"⟩
        = Except.ok ({ exSessionPassTen with
                       status := SessionStatus.COMPLETED,
                       final_pitch := some (Json.obj []) },
            approvedResponse "sid"
              { exSessionPassTen with
                status := SessionStatus.COMPLETED,
                final_pitch := some (Json.obj []) } (Json.obj []),
            [Event.packaged]) := by
  have h := C3_amended exEnvPass "sid" exSessionPassTen rejD rfl (by decide) rfl
  exact ⟨h.1, h.2.2.2.2 "fb" (Json.obj []) rfl⟩

/-- C4: a rejection at the gate below the ceiling performs exactly one
manual refine call that receives the human feedback text, then re-enters
the evaluate/refine loop on the session whose auto-refine counter has
been reset to exactly 0 and whose draft is the refine output. -/
theorem C4_gate_rejection_resets :
    ∀ (env : Env) (sid : String) (s : Session) (d : ApprovalDecision) (p : String),
      s.status = SessionStatus.AWAITING_APPROVAL →
      s.iteration_count < 10 →
      d.approved = false →
      env.refine s.pitch s.critique d.feedback = Except.ok p →
      approve_pitch env sid s d
          = liftLoop (Event.refined d.feedback)
              (run_critique_refine_loop env sid
                { s with status := SessionStatus.REFINING, pitch := p,
                         critic_fail_count := 0 }) ∧
      ({ s with status := SessionStatus.REFINING, pitch := p,
                critic_fail_count := 0 } : Session).critic_fail_count = 0 := by
  intro env sid s d p h1 h2 h3 h4
  refine ⟨?_, rfl⟩
  unfold approve_pitch
  rw [if_neg (by simp [h1]), if_neg (by omega), if_neg (by simp [h3])]
  dsimp only
  rw [h4]

/-- Witness for C4 at a concrete gate session. -/
theorem C4_gate_rejection_resets_witness :
    approve_pitch exEnvPass "sid" exSessionPass1 rejD
        = liftLoop (Event.refined rejD.feedback)
            (run_critique_refine_loop exEnvPass "sid"
              { exSessionPass1 with status := SessionStatus.REFINING,
                                    pitch := "refined", critic_fail_count := 0 }) ∧
    ({ exSessionPass1 with status := SessionStatus.REFINING, pitch := "refined",
                           critic_fail_count := 0 } : Session).critic_fail_count = 0 :=
  C4_gate_rejection_resets exEnvPass "sid" exSessionPass1 rejD "refined"
    rfl (by decide) rfl rfl


theorem storeGet_storeSet (store : Store) (sid : String) (s : Session) :
    storeGet (storeSet store sid s) sid = some s := by
  induction store with
  | nil => simp [storeSet, storeGet]
  | cons kv rest ih =>
    obtain ⟨k, v⟩ := kv
    by_cases h : k = sid
    · simp [storeSet, h, storeGet]
    · have hb : (k == sid) = false := beq_eq_false_iff_ne.mpr h
      simp only [storeSet, if_neg h]
      simpa [storeGet, List.find?_cons, hb] using ih

/-- C2 is refuted as stated for the batch graph: `route_after_critic`
still answers `refiner` (ContinueRefine) on a FAIL critique when three
or four auto-refine rounds have already happened — its bound is five
critiques, not `AUTO_REFINE_LIMIT` three. -/
theorem C2_counterexample :
    route_after_critic ⟨"mvp", "ctx", "p", failCrit, 3, "", false, ""⟩ = some "refiner" ∧
    route_after_critic ⟨"mvp", "ctx", "p", failCrit, 4, "", false, ""⟩ = some "refiner" :=
  ⟨rfl, rfl⟩

/-- C2 (amended): in the step-wise service the bound holds — entering
the loop with the fail counter at the limit goes straight to the gate
with no stage run, and an all-FAIL workflow reaches `awaiting_approval`
after exactly three (hence at most four) evaluation rounds; the batch
graph's router instead bounds refinement at five critiques. -/
theorem C2_amended :
    (∀ (env : Env) (sid : String) (s : Session),
        max_auto_refine_attempts ≤ s.critic_fail_count →
        run_critique_refine_loop env sid s = Except.ok (loopFallThrough sid s)) ∧
    (∀ (env : Env) (sid now : String) (store : Store) (mvp ctx p : String),
        alwaysFailCritic env → alwaysRefines env →
        env.gather_context mvp = Except.ok ctx →
        env.generate_pitch mvp ctx = Except.ok p →
        ∃ store' r ev s',
          start_pitch_workflow env sid now store mvp = Except.ok (store', r, ev) ∧
          storeGet store' sid = some s' ∧
          s'.status = SessionStatus.AWAITING_APPROVAL ∧
          s'.iteration_count = max_auto_refine_attempts ∧
          evCount ev = max_auto_refine_attempts ∧
          evCount ev ≤ max_auto_refine_attempts + 1 ∧
          r.status = SessionStatus.AWAITING_APPROVAL) ∧
    (∀ (st : PitchState) (kvs : List (String × Json)),
        st.critique = Json.obj kvs →
        5 ≤ st.critique_count →
        route_after_critic st = some "human_review") := by
  refine ⟨fun env sid s h => run_loop_skip env sid s h, ?_, ?_⟩
  · intro env sid now store mvp ctx p hfail href hctx hdraft
    obtain ⟨s', r, ev, hok, hst, hcount, hev, _hfc, hrs, _hrd⟩ :=
      loopAux_allfail env sid hfail href max_auto_refine_attempts
        (initialSession mvp ctx p now) rfl
    refine ⟨storeSet (storeSet store sid (initialSession mvp ctx p now)) sid s',
      r, ev, s', ?_, ?_, hst, ?_, hev, by omega, hrs⟩
    · unfold start_pitch_workflow
      simp only [hctx, hdraft]
      rw [show run_critique_refine_loop env sid (initialSession mvp ctx p now)
            = loopAux env sid max_auto_refine_attempts (initialSession mvp ctx p now) from rfl]
      rw [hok]
    · exact storeGet_storeSet _ sid s'
    · simpa [initialSession] using hcount
  · intro st kvs hobj hcount
    unfold route_after_critic
    rw [hobj]
    simp [hcount]

/-- Witness for the amended C2 under the concrete always-FAIL
environment. -/
theorem C2_amended_witness :
    run_critique_refine_loop exEnvFail "sid" exSessionStart3
        = Except.ok (loopFallThrough "sid" exSessionStart3) ∧
    (∃ store' r ev s',
        start_pitch_workflow exEnvFail "sid" "t" [] "mvp" = Except.ok (store', r, ev) ∧
        storeGet store' "sid" = some s' ∧
        s'.status = SessionStatus.AWAITING_APPROVAL ∧
        s'.iteration_count = max_auto_refine_attempts ∧
        evCount ev = max_auto_refine_attempts ∧
        evCount ev ≤ max_auto_refine_attempts + 1 ∧
        r.status = SessionStatus.AWAITING_APPROVAL) ∧
    route_after_critic ⟨"mvp", "ctx", "p", failCrit, 5, "", false, ""⟩
        = some "human_review" := by
  refine ⟨C2_amended.1 exEnvFail "sid" exSessionStart3 (by decide), ?_, ?_⟩
  · exact C2_amended.2.1 exEnvFail "sid" "t" [] "mvp" "ctx" "draft0"
      (fun p => ⟨failJsonStr, [("decision", Json.str "FAIL")], rfl, rfl, rfl⟩)
      (fun p c fb => ⟨"refined", rfl⟩) rfl rfl
  · exact C2_amended.2.2 ⟨"mvp", "ctx", "p", failCrit, 5, "", false, ""⟩
      [("decision", Json.str "FAIL")] rfl (by decide)


/-- C8: `final_pitch` is written at most once per session and only by
the packaging stage of an approved gate decision: a completed session
holding a package is never changed again by any request; a successful
gate request that makes `final_pitch` appear must have been an approval
of a session at the gate, runs exactly one packaging stage, and leaves
the session completed; a failed gate request never sets it. -/
theorem C8_final_package_once :
    (∀ (env : Env) (sid : String) (s : Session) (ops : List Op) (p : Json),
        s.final_pitch = some p →
        s.status = SessionStatus.COMPLETED →
        applyOps env sid s ops = s) ∧
    (∀ (env : Env) (sid : String) (s : Session) (d : ApprovalDecision) (s' : Session)
        (r : ApiResponse) (ev : List Event),
        s.final_pitch = none →
        approve_pitch env sid s d = Except.ok (s', r, ev) →
        s'.final_pitch ≠ none →
        d.approved = true ∧ s.status = SessionStatus.AWAITING_APPROVAL ∧
        s'.status = SessionStatus.COMPLETED ∧ ev = [Event.packaged] ∧
        ∃ pkg, env.final s.pitch d.feedback = Except.ok pkg ∧
          s'.final_pitch = some pkg) ∧
    (∀ (env : Env) (sid : String) (s : Session) (d : ApprovalDecision) (a : ApiError)
        (s' : Session) (ev : List Event),
        approve_pitch env sid s d = Except.error (a, s', ev) →
        s'.final_pitch = s.final_pitch) := by
  have hop : ∀ (env : Env) (sid : String) (s : Session) (op : Op),
      s.status = SessionStatus.COMPLETED → applyOp env sid s op = s := by
    intro env sid s op hst
    cases op with
    | gate d =>
      rw [applyOp_gate]
      unfold approve_pitch
      rw [if_pos (by rw [hst]; intro hcon; cases hcon)]
      rfl
    | statusQuery => rfl
    | finalQuery => rfl
  refine ⟨?_, ?_, ?_⟩
  · intro env sid s ops p hfp hst
    induction ops with
    | nil => rfl
    | cons op ops ih =>
      show applyOps env sid (applyOp env sid s op) ops = s
      rw [hop env sid s op hst]
      exact ih
  · intro env sid s d s' r ev hnone happ hsome
    unfold approve_pitch at happ
    by_cases h1 : s.status ≠ SessionStatus.AWAITING_APPROVAL
    · rw [if_pos h1] at happ
      cases happ
    · rw [if_neg h1] at happ
      push_neg at h1
      by_cases h2 : 10 ≤ s.iteration_count ∧ d.approved = false
      · rw [if_pos h2] at happ
        simp only [Except.ok.injEq, Prod.mk.injEq] at happ
        obtain ⟨hs', -, -⟩ := happ
        rw [← hs'] at hsome
        exact absurd hnone hsome
      · rw [if_neg h2] at happ
        by_cases h3 : d.approved = true
        · rw [if_pos h3] at happ
          dsimp only at happ
          cases hf : env.final s.pitch d.feedback with
          | error e =>
            simp only [hf] at happ
            simp at happ
          | ok pkg =>
            simp only [hf, Except.ok.injEq, Prod.mk.injEq] at happ
            obtain ⟨hs', hr, hev⟩ := happ
            refine ⟨h3, h1, ?_, hev.symm, pkg, rfl, ?_⟩
            · rw [← hs']
            · rw [← hs']
        · rw [if_neg h3] at happ
          dsimp only at happ
          cases hrf : env.refine s.pitch s.critique d.feedback with
          | error e =>
            simp only [hrf] at happ
            simp at happ
          | ok np =>
            simp only [hrf] at happ
            cases hl : run_critique_refine_loop env sid
                { s with status := SessionStatus.REFINING, pitch := np,
                         critic_fail_count := 0 } with
            | ok t =>
              obtain ⟨sL, rL, evL⟩ := t
              rw [hl] at happ
              simp only [liftLoop, Except.ok.injEq, Prod.mk.injEq] at happ
              obtain ⟨hs', -, -⟩ := happ
              have hfinal := (run_loop_ok_spec env sid _ sL rL evL hl).2.1
              simp at hfinal
              rw [← hs', hfinal] at hsome
              exact absurd hnone hsome
            | error t =>
              obtain ⟨eL, sL, evL⟩ := t
              rw [hl] at happ
              simp only [liftLoop] at happ
              simp at happ
  · intro env sid s d a s' ev happ
    unfold approve_pitch at happ
    by_cases h1 : s.status ≠ SessionStatus.AWAITING_APPROVAL
    · rw [if_pos h1] at happ
      simp only [Except.error.injEq, Prod.mk.injEq] at happ
      obtain ⟨-, hs', -⟩ := happ
      rw [← hs']
    · rw [if_neg h1] at happ
      by_cases h2 : 10 ≤ s.iteration_count ∧ d.approved = false
      · rw [if_pos h2] at happ
        cases happ
      · rw [if_neg h2] at happ
        by_cases h3 : d.approved = true
        · rw [if_pos h3] at happ
          dsimp only at happ
          cases hf : env.final s.pitch d.feedback with
          | error e =>
            simp only [hf, Except.error.injEq, Prod.mk.injEq] at happ
            obtain ⟨-, hs', -⟩ := happ
            rw [← hs']
          | ok pkg =>
            simp only [hf] at happ
            simp at happ
        · rw [if_neg h3] at happ
          dsimp only at happ
          cases hrf : env.refine s.pitch s.critique d.feedback with
          | error e =>
            simp only [hrf, Except.error.injEq, Prod.mk.injEq] at happ
            obtain ⟨-, hs', -⟩ := happ
            rw [← hs']
          | ok np =>
            simp only [hrf] at happ
            cases hl : run_critique_refine_loop env sid
                { s with status := SessionStatus.REFINING, pitch := np,
                         critic_fail_count := 0 } with
            | ok t =>
              obtain ⟨sL, rL, evL⟩ := t
              rw [hl] at happ
              simp only [liftLoop] at happ
              simp at happ
            | error t =>
              obtain ⟨eL, sL, evL⟩ := t
              rw [hl] at happ
              simp only [liftLoop, Except.error.injEq, Prod.mk.injEq] at happ
              obtain ⟨-, hs', -⟩ := happ
              have hfinal := (run_loop_error_spec env sid _ sL eL evL hl).2.1
              simp at hfinal
              rw [← hs', hfinal]


/-- Witness for C8: a completed session survives a reject and both
reads unchanged, and a concrete approval is the unique package write. -/
theorem C8_final_package_once_witness :
    applyOps exEnvPass "sid" exSessionDone [Op.gate rejD, Op.statusQuery, Op.finalQuery]
        = exSessionDone ∧
    ((true : Bool) = true ∧ exSessionPass1.status = SessionStatus.AWAITING_APPROVAL ∧
      ({ exSessionPass1 with status := SessionStatus.COMPLETED,
                             final_pitch := some (Json.obj []) } : Session).status
          = SessionStatus.COMPLETED ∧
      ([Event.packaged] : List Event) = [Event.packaged] ∧
      ∃ pkg, exEnvPass.final exSessionPass1.pitch "fb" = Except.ok pkg ∧
        ({ exSessionPass1 with status := SessionStatus.COMPLETED,
                               final_pitch := some (Json.obj []) } : Session).final_pitch
            = some pkg) := by
  constructor
  · exact C8_final_package_once.1 exEnvPass "sid" exSessionDone
      [Op.gate rejD, Op.statusQuery, Op.finalQuery] (Json.obj []) rfl rfl
  · exact C8_final_package_once.2.1 exEnvPass "sid" exSessionPass1 ⟨true, "fb"⟩
      { exSessionPass1 with status := SessionStatus.COMPLETED,
                            final_pitch := some (Json.obj []) }
      (approvedResponse "sid"
        { exSessionPass1 with status := SessionStatus.COMPLETED,
                              final_pitch := some (Json.obj []) } (Json.obj []))
      [Event.packaged] rfl rfl (by simp)

/-- C9 is refuted as stated: when the refine call of a gate rejection
raises, the request aborts but the session's `status` field has already
been advanced to `refining` — the state is not left exactly as at the
last committed stage. -/
theorem C9_counterexample :
    approve_pitch exEnvRefineFail "sid" exSessionGate rejD
        = Except.error (ApiError.py (PyErr.gen "boom"),
            { exSessionGate with status := SessionStatus.REFINING }, []) ∧
    ({ exSessionGate with status := SessionStatus.REFINING } : Session).status
        ≠ exSessionGate.status :=
  ⟨rfl, by decide⟩

/-- C9 (amended): an external-call failure aborts the request and leaves
the draft, critique, counters and final package exactly as committed,
but the `status` field may already have advanced before the failing call
(to `refining` before a refine, to `approved` before packaging); an
evaluation-call failure at the top of the loop does leave the session
entirely untouched. -/
theorem C9_amended :
    (∀ (env : Env) (sid : String) (s : Session) (d : ApprovalDecision) (e : PyErr),
        s.status = SessionStatus.AWAITING_APPROVAL →
        s.iteration_count < 10 →
        d.approved = false →
        env.refine s.pitch s.critique d.feedback = Except.error e →
        approve_pitch env sid s d = Except.error (ApiError.py e,
          { s with status := SessionStatus.REFINING }, [])) ∧
    (∀ (env : Env) (sid : String) (s : Session) (d : ApprovalDecision) (e : PyErr),
        s.status = SessionStatus.AWAITING_APPROVAL →
        d.approved = true →
        env.final s.pitch d.feedback = Except.error e →
        approve_pitch env sid s d = Except.error (ApiError.py e,
          { s with status := SessionStatus.APPROVED }, [])) ∧
    (∀ (env : Env) (sid : String) (s : Session) (e : PyErr),
        s.critic_fail_count < max_auto_refine_attempts →
        env.critic s.pitch = Except.error e →
        run_critique_refine_loop env sid s = Except.error (e, s, [])) := by
  refine ⟨?_, ?_, ?_⟩
  · intro env sid s d e h1 h2 h3 h4
    unfold approve_pitch
    rw [if_neg (by simp [h1]), if_neg (by omega), if_neg (by simp [h3])]
    dsimp only
    rw [h4]
  · intro env sid s d e h1 h2 h3
    unfold approve_pitch
    rw [if_neg (by simp [h1]), if_neg (by simp [h2]), if_pos h2]
    dsimp only
    rw [h3]
  · intro env sid s e hlt hcrit
    have hfuel : max_auto_refine_attempts - s.critic_fail_count
        = (max_auto_refine_attempts - s.critic_fail_count - 1) + 1 := by omega
    unfold run_critique_refine_loop
    rw [hfuel, loopAux, if_pos hlt]
    simp [critique_pitch, hcrit, Except.map]

/-- Witness for the amended C9 at the three concrete failing
environments. -/
theorem C9_amended_witness :
    approve_pitch exEnvRefineFail "sid" exSessionGate rejD
        = Except.error (ApiError.py (PyErr.gen "boom"),
            { exSessionGate with status := SessionStatus.REFINING }, []) ∧
    approve_pitch exEnvFinalFail "sid" exSessionPass1 ⟨true, "fb"⟩
        = Except.error (ApiError.py (PyErr.gen "pkgboom"),
            { exSessionPass1 with status := SessionStatus.APPROVED }, []) ∧
    run_critique_refine_loop exEnvCriticFail "sid" (initialSession "m" "c" "p" "t")
        = Except.error (PyErr.gen "critboom", initialSession "m" "c" "p" "t", []) :=
  ⟨C9_amended.1 exEnvRefineFail "sid" exSessionGate rejD (PyErr.gen "boom")
      rfl (by decide) rfl rfl,
   C9_amended.2.1 exEnvFinalFail "sid" exSessionPass1 ⟨true, "fb"⟩ (PyErr.gen "pkgboom")
      rfl rfl rfl,
   C9_amended.2.2 exEnvCriticFail "sid" (initialSession "m" "c" "p" "t")
      (PyErr.gen "critboom") (by decide) rfl⟩

/-- C10 is refuted as stated: the session is inserted before the first
evaluation, so when the critic call of the same Start request raises,
the store is left holding the new session — observable through the store
lookup and the list endpoint. -/
theorem C10_counterexample :
    start_pitch_workflow exEnvCriticFail "sid" "t" [] "mvp"
        = Except.error (ApiError.py (PyErr.gen "critboom"),
            [("sid", initialSession "mvp" "ctx" "draft0" "t")], []) ∧
    (startStoredSession (start_pitch_workflow exEnvCriticFail "sid" "t" [] "mvp") "sid").isSome
        = true ∧
    (list_sessions [("sid", initialSession "mvp" "ctx" "draft0" "t")]).1 = 1 :=
  ⟨rfl, rfl, rfl⟩

/-- C10 (amended): a failure of the context-gathering call or of the
initial draft-generation call leaves the store exactly unchanged — the
insert happens only after both succeed; it is the later evaluation call
of the same Start request whose failure can expose the inserted
session. -/
theorem C10_amended :
    (∀ (env : Env) (sid now : String) (store : Store) (mvp : String) (e : PyErr),
        env.gather_context mvp = Except.error e →
        start_pitch_workflow env sid now store mvp
            = Except.error (ApiError.py e, store, [])) ∧
    (∀ (env : Env) (sid now : String) (store : Store) (mvp ctx : String) (e : PyErr),
        env.gather_context mvp = Except.ok ctx →
        env.generate_pitch mvp ctx = Except.error e →
        start_pitch_workflow env sid now store mvp
            = Except.error (ApiError.py e, store, [])) := by
  constructor
  · intro env sid now store mvp e h
    unfold start_pitch_workflow
    rw [h]
  · intro env sid now store mvp ctx e h1 h2
    unfold start_pitch_workflow
    simp only [h1, h2]

/-- Witness for the amended C10 at concrete failing environments with an
empty store. -/
theorem C10_amended_witness :
    start_pitch_workflow exEnvCtxFail "sid" "t" [] "mvp"
        = Except.error (ApiError.py (PyErr.gen "ctxboom"), [], []) ∧
    start_pitch_workflow exEnvDraftFail "sid" "t" [] "mvp"
        = Except.error (ApiError.py (PyErr.gen "draftboom"), [], []) :=
  ⟨C10_amended.1 exEnvCtxFail "sid" "t" [] "mvp" (PyErr.gen "ctxboom") rfl,
   C10_amended.2 exEnvDraftFail "sid" "t" [] "mvp" "ctx" (PyErr.gen "draftboom") rfl rfl⟩


/-! ## Digit and character lemmas for the decoder -/

theorem digitChar_mem (d : Nat) :
    digitChar d = '0' ∨ digitChar d = '1' ∨ digitChar d = '2' ∨ digitChar d = '3' ∨
    digitChar d = '4' ∨ digitChar d = '5' ∨ digitChar d = '6' ∨ digitChar d = '7' ∨
    digitChar d = '8' ∨ digitChar d = '9' := by
  match d with
  | 0 => exact Or.inl rfl
  | 1 => exact Or.inr (Or.inl rfl)
  | 2 => exact Or.inr (Or.inr (Or.inl rfl))
  | 3 => exact Or.inr (Or.inr (Or.inr (Or.inl rfl)))
  | 4 => exact Or.inr (Or.inr (Or.inr (Or.inr (Or.inl rfl))))
  | 5 => exact Or.inr (Or.inr (Or.inr (Or.inr (Or.inr (Or.inl rfl)))))
  | 6 => exact Or.inr (Or.inr (Or.inr (Or.inr (Or.inr (Or.inr (Or.inl rfl))))))
  | 7 => exact Or.inr (Or.inr (Or.inr (Or.inr (Or.inr (Or.inr (Or.inr (Or.inl rfl)))))))
  | 8 => exact Or.inr (Or.inr (Or.inr (Or.inr (Or.inr (Or.inr (Or.inr (Or.inr (Or.inl rfl))))))))
  | n + 9 =>
    match n with
    | 0 => exact Or.inr (Or.inr (Or.inr (Or.inr (Or.inr (Or.inr (Or.inr (Or.inr (Or.inr rfl))))))))
    | _ + 1 => exact Or.inr (Or.inr (Or.inr (Or.inr (Or.inr (Or.inr (Or.inr (Or.inr (Or.inr rfl))))))))

/-- All the facts about a digit character the decoder dispatch needs. -/
theorem digitChar_side (d : Nat) :
    (digitChar d).isDigit = true ∧ isPyWs (digitChar d) = false ∧
    isJWs (digitChar d) = false ∧ digitChar d ≠ tick ∧ digitChar d ≠ 'n' ∧
    digitChar d ≠ 't' ∧ digitChar d ≠ 'f' ∧ digitChar d ≠ '"' ∧
    digitChar d ≠ '[' ∧ digitChar d ≠ lbraceCh ∧ digitChar d ≠ 'j' ∧
    digitChar d ≠ '-' := by
  rcases digitChar_mem d with h | h | h | h | h | h | h | h | h | h <;> rw [h] <;>
    exact (by decide)

theorem charToDigit_digitChar (d : Nat) (h : d < 10) :
    charToDigit (digitChar d) = d := by
  interval_cases d <;> decide

/-! ## `natToChars` and `readDigits` -/

theorem natToCharsF_irrel : ∀ n f f', n < f → n < f' →
    natToCharsF f n = natToCharsF f' n := by
  intro n
  induction n using Nat.strong_induction_on with
  | _ n ih =>
    intro f f' hf hf'
    obtain ⟨g, rfl⟩ := Nat.exists_eq_succ_of_ne_zero (show f ≠ 0 by omega)
    obtain ⟨g', rfl⟩ := Nat.exists_eq_succ_of_ne_zero (show f' ≠ 0 by omega)
    by_cases h : n < 10
    · simp [natToCharsF, h]
    · have hdiv : n / 10 < n := Nat.div_lt_self (by omega) (by omega)
      simp only [natToCharsF, if_neg h]
      rw [ih (n / 10) hdiv g (g' + 1) (by omega) (by omega),
          ih (n / 10) hdiv (g' + 1) g' (by omega) (by omega)]

theorem natToChars_lt (n : Nat) (h : n < 10) : natToChars n = [digitChar n] := by
  simp [natToChars, natToCharsF, h]

theorem natToChars_ge (n : Nat) (h : 10 ≤ n) :
    natToChars n = natToChars (n / 10) ++ [digitChar (n % 10)] := by
  have hdiv : n / 10 < n := Nat.div_lt_self (by omega) (by omega)
  rw [natToChars, natToCharsF, if_neg (by omega)]
  rw [natToCharsF_irrel (n / 10) n (n / 10 + 1) hdiv (by omega)]
  rfl

theorem natToChars_all_digits (n : Nat) :
    ∀ c ∈ natToChars n, c.isDigit = true := by
  induction n using Nat.strong_induction_on with
  | _ n ih =>
    by_cases h : n < 10
    · rw [natToChars_lt n h]
      intro c hc
      rw [List.mem_singleton] at hc
      rw [hc]
      exact (digitChar_side n).1
    · rw [natToChars_ge n (by omega)]
      intro c hc
      rcases List.mem_append.mp hc with hc | hc
      · exact ih (n / 10) (Nat.div_lt_self (by omega) (by omega)) c hc
      · rw [List.mem_singleton] at hc
        rw [hc]
        exact (digitChar_side (n % 10)).1

theorem natToChars_head (n : Nat) :
    ∃ d t, natToChars n = digitChar d :: t := by
  induction n using Nat.strong_induction_on with
  | _ n ih =>
    by_cases h : n < 10
    · exact ⟨n, [], natToChars_lt n h⟩
    · obtain ⟨d, t, ht⟩ := ih (n / 10) (Nat.div_lt_self (by omega) (by omega))
      exact ⟨d, t ++ [digitChar (n % 10)], by rw [natToChars_ge n (by omega), ht]; rfl⟩

theorem natToChars_last (n : Nat) :
    ∃ d, (natToChars n).getLast? = some (digitChar d) := by
  by_cases h : n < 10
  · exact ⟨n, by rw [natToChars_lt n h]; rfl⟩
  · refine ⟨n % 10, ?_⟩
    rw [natToChars_ge n (by omega), List.getLast?_append]
    rfl

theorem readDigits_append (n : Nat) : ∀ acc k rest,
    readDigits (natToChars n ++ rest) acc k
      = readDigits rest (acc * 10 ^ (natToChars n).length + n)
          (k + (natToChars n).length) := by
  induction n using Nat.strong_induction_on with
  | _ n ih =>
    intro acc k rest
    by_cases h : n < 10
    · rw [natToChars_lt n h]
      simp only [List.cons_append, List.nil_append, readDigits,
        (digitChar_side n).1, if_true, charToDigit_digitChar n h,
        List.length_singleton]
      ring_nf
      simp [List.nil_append]
    · rw [natToChars_ge n (by omega)]
      rw [List.append_assoc, List.singleton_append]
      rw [ih (n / 10) (Nat.div_lt_self (by omega) (by omega)) acc k
        (digitChar (n % 10) :: rest)]
      simp only [readDigits, (digitChar_side (n % 10)).1, if_true,
        charToDigit_digitChar (n % 10) (by omega), List.length_append,
        List.length_singleton]
      have : (acc * 10 ^ (natToChars (n / 10)).length + n / 10) * 10 + n % 10
          = acc * 10 ^ ((natToChars (n / 10)).length + 1) + n := by
        rw [pow_succ]
        have := Nat.div_add_mod n 10
        ring_nf
        omega
      rw [this]
      ring_nf

theorem readDigits_stop (rest : List Char) (acc k : Nat)
    (h : ∀ c, rest.head? = some c → c.isDigit = false) :
    readDigits rest acc k = (acc, k, rest) := by
  cases rest with
  | nil => rfl
  | cons c cs =>
    rw [readDigits, h c rfl]
    simp

/-- Reading exactly the digits of `n` from the front. -/
theorem readDigits_run (n : Nat) (rest : List Char)
    (h : ∀ c, rest.head? = some c → c.isDigit = false) :
    readDigits (natToChars n ++ rest) 0 0
      = (n, (natToChars n).length, rest) := by
  rw [readDigits_append n 0 0 rest, readDigits_stop rest _ _ h]
  simp


/-! ## Round-tripping numbers -/

theorem parseUnsigned_spec (neg : Bool) (u : Nat) (e : Int) (rest : List Char)
    (hrest : numSafe rest) :
    parseUnsigned neg
        (natToChars u ++ ((if e = 0 then [] else 'e' :: intToChars e) ++ rest))
      = some (Json.num (mkSign neg u) e, rest) := by
  set T : List Char := if e = 0 then [] else 'e' :: intToChars e with hT
  have hXdig : ∀ c, (T ++ rest).head? = some c → c.isDigit = false := by
    intro c hc
    by_cases he : e = 0
    · rw [hT, if_pos he, List.nil_append] at hc
      exact (hrest c hc).1
    · rw [hT, if_neg he] at hc
      simp at hc
      cases hc
      decide
  have hq : readDigits (natToChars u ++ (T ++ rest)) 0 0
      = (u, (natToChars u).length, T ++ rest) := readDigits_run u _ hXdig
  obtain ⟨d, t, hdt⟩ := natToChars_head u
  have hshape : natToChars u ++ (T ++ rest) = digitChar d :: (t ++ (T ++ rest)) := by
    rw [hdt]; rfl
  unfold parseUnsigned
  rw [hshape]
  dsimp only
  rw [if_pos (digitChar_side d).1]
  rw [← hshape, hq]
  dsimp only
  by_cases he : e = 0
  · rw [hT, if_pos he, List.nil_append] at *
    subst he
    cases hr : rest with
    | nil => rfl
    | cons c cs =>
      obtain ⟨hcd, hce, hcE, hcdot⟩ := hrest c (by rw [hr]; rfl)
      dsimp only
      rw [if_neg hcdot]
      dsimp only
      rw [if_neg (by simp [hce, hcE])]
  · rw [hT, if_neg he, List.cons_append]
    dsimp only
    rw [if_neg (by decide)]
    dsimp only
    rw [if_pos (Or.inl rfl)]
    by_cases hneg : e < 0
    · have hi : intToChars e = '-' :: natToChars e.natAbs := by
        rw [intToChars, if_pos hneg]
      rw [hi, List.cons_append]
      dsimp only
      rw [if_pos rfl]
      obtain ⟨d2, t2, h2⟩ := natToChars_head e.natAbs
      have hsh2 : natToChars e.natAbs ++ rest = digitChar d2 :: (t2 ++ rest) := by
        rw [h2]; rfl
      rw [hsh2]
      dsimp only
      rw [if_pos (digitChar_side d2).1]
      rw [← hsh2, readDigits_run e.natAbs rest (fun c hc => (hrest c hc).1)]
      dsimp only
      rw [if_pos rfl]
      have : (0 : Int) + -(e.natAbs : Int) = e := by omega
      rw [this]
    · have hi : intToChars e = natToChars e.natAbs := by
        rw [intToChars, if_neg hneg]
      rw [hi]
      obtain ⟨d2, t2, h2⟩ := natToChars_head e.natAbs
      have hsh2 : natToChars e.natAbs ++ rest = digitChar d2 :: (t2 ++ rest) := by
        rw [h2]; rfl
      rw [hsh2]
      dsimp only
      rw [if_neg (digitChar_side d2).2.2.2.2.2.2.2.2.2.2.2]
      rw [if_neg (by
        have := digitChar_mem d2
        rcases this with h | h | h | h | h | h | h | h | h | h <;> rw [h] <;> decide)]
      dsimp only
      rw [if_pos (digitChar_side d2).1]
      rw [← hsh2, readDigits_run e.natAbs rest (fun c hc => (hrest c hc).1)]
      dsimp only
      rw [if_neg (by decide)]
      have : (0 : Int) + (e.natAbs : Int) = e := by omega
      rw [this]

theorem parseNum_serNum (m e : Int) (rest : List Char) (hrest : numSafe rest) :
    parseNum (serNum m e ++ rest) = some (Json.num m e, rest) := by
  by_cases hm : m < 0
  · have hs : serNum m e ++ rest
        = '-' :: (natToChars m.natAbs
            ++ ((if e = 0 then [] else 'e' :: intToChars e) ++ rest)) := by
      rw [serNum, intToChars, if_pos hm]
      simp [List.append_assoc]
    rw [hs, parseNum]
    rw [if_pos rfl, parseUnsigned_spec true m.natAbs e rest hrest]
    have : mkSign true m.natAbs = m := by rw [mkSign, if_pos rfl]; omega
    rw [this]
  · obtain ⟨d, t, hdt⟩ := natToChars_head m.natAbs
    have hs : serNum m e ++ rest
        = natToChars m.natAbs
            ++ ((if e = 0 then [] else 'e' :: intToChars e) ++ rest) := by
      rw [serNum, intToChars, if_neg hm]
      simp [List.append_assoc]
    have hsh : serNum m e ++ rest = digitChar d :: (t
        ++ ((if e = 0 then [] else 'e' :: intToChars e) ++ rest)) := by
      rw [hs, hdt]; rfl
    rw [hsh, parseNum]
    rw [if_neg (digitChar_side d).2.2.2.2.2.2.2.2.2.2.2, ← hsh, hs,
      parseUnsigned_spec false m.natAbs e rest hrest]
    have : mkSign false m.natAbs = m := by rw [mkSign, if_neg (by decide)]; omega
    rw [this]


/-! ## Round-tripping strings, heads and tails of serialised values -/

theorem parseStrBody_escList (s : List Char) : ∀ rest : List Char,
    parseStrBody (escList s ++ '"' :: rest) = some (s, rest) := by
  induction s with
  | nil =>
    intro rest
    simp only [escList, List.nil_append]
    rw [parseStrBody.eq_def]
    dsimp only
    rw [if_pos rfl]
  | cons c cs ih =>
    intro rest
    by_cases hc : c = '"' ∨ c = '\\'
    · have hesc : escList (c :: cs) = '\\' :: c :: escList cs := by
        rw [escList, escChar, if_pos hc]
        rfl
      have hu : unescChar c = some c := by
        rcases hc with rfl | rfl <;> rfl
      rw [hesc, List.cons_append, List.cons_append, parseStrBody.eq_def]
      dsimp only
      rw [if_neg (by decide), if_pos rfl, hu, ih rest]
      rfl
    · push_neg at hc
      have hesc : escList (c :: cs) = c :: escList cs := by
        rw [escList, escChar, if_neg (by
          intro h
          rcases h with h | h
          · exact hc.1 h
          · exact hc.2 h)]
        rfl
      rw [hesc, List.cons_append, parseStrBody.eq_def]
      dsimp only
      rw [if_neg hc.1, if_neg hc.2, ih rest]
      rfl

theorem dropWhile_fix (p : Char → Bool) (l : List Char)
    (h : ∀ c, l.head? = some c → p c = false) : l.dropWhile p = l := by
  cases l with
  | nil => rfl
  | cons c cs =>
    rw [List.dropWhile_cons, h c rfl]
    rfl

theorem skipJWs_fix (l : List Char) (h : ∀ c, l.head? = some c → isJWs c = false) :
    skipJWs l = l :=
  dropWhile_fix isJWs l h

theorem pyStrip_fix (cs : List Char)
    (hh : ∀ c, cs.head? = some c → isPyWs c = false)
    (hl : ∀ c, cs.getLast? = some c → isPyWs c = false) : pyStrip cs = cs := by
  unfold pyStrip
  rw [dropWhile_fix isPyWs cs hh,
      dropWhile_fix isPyWs cs.reverse
        (fun c hc => hl c (by rwa [List.head?_reverse] at hc)),
      List.reverse_reverse]

theorem pyStrip_cons_ws (c : Char) (cs : List Char) (h : isPyWs c = true) :
    pyStrip (c :: cs) = pyStrip cs := by
  simp [pyStrip, List.dropWhile_cons, h]

theorem leadsWith_append (p r : List Char) : leadsWith p (p ++ r) = true := by
  induction p with
  | nil => rfl
  | cons c cs ih => simpa [leadsWith] using ih

theorem leadsWith_cons_ne (p : Char) (ps : List Char) (c : Char) (cs : List Char)
    (h : c ≠ p) : leadsWith (p :: ps) (c :: cs) = false := by
  have hb : (p == c) = false := beq_eq_false_iff_ne.mpr (fun hpc => h hpc.symm)
  simp [leadsWith, hb]

theorem serNum_head (m e : Int) :
    ∃ c t, serNum m e = c :: t ∧ (c = '-' ∨ ∃ d, c = digitChar d) := by
  by_cases hm : m < 0
  · refine ⟨'-', natToChars m.natAbs ++ (if e = 0 then [] else 'e' :: intToChars e),
      ?_, Or.inl rfl⟩
    rw [serNum, intToChars, if_pos hm, List.cons_append]
  · obtain ⟨d, t, hdt⟩ := natToChars_head m.natAbs
    refine ⟨digitChar d, t ++ (if e = 0 then [] else 'e' :: intToChars e),
      ?_, Or.inr ⟨d, rfl⟩⟩
    rw [serNum, intToChars, if_neg hm, hdt, List.cons_append]

/-- Every serialised value starts with a character that is not
whitespace, not a backtick, not `j`, and not a closing delimiter. -/
theorem serVal_head (x : Json) :
    ∃ c t, serVal x = c :: t ∧ isPyWs c = false ∧ isJWs c = false ∧
      c ≠ tick ∧ c ≠ 'j' ∧ c ≠ ']' ∧ c ≠ rbraceCh := by
  cases x with
  | null => exact ⟨'n', _, rfl, by decide⟩
  | bool b =>
    cases b with
    | true => exact ⟨'t', _, rfl, by decide⟩
    | false => exact ⟨'f', _, rfl, by decide⟩
  | num m e =>
    obtain ⟨c, t, hct, hc⟩ := serNum_head m e
    refine ⟨c, t, by rw [show serVal (Json.num m e) = serNum m e from rfl, hct], ?_⟩
    rcases hc with rfl | ⟨d, rfl⟩
    · exact (by decide)
    · refine ⟨(digitChar_side d).2.1, (digitChar_side d).2.2.1,
        (digitChar_side d).2.2.2.1, ?_, ?_, ?_⟩ <;>
        (rcases digitChar_mem d with h | h | h | h | h | h | h | h | h | h <;>
          rw [h] <;> decide)
  | str s => exact ⟨'"', _, rfl, by decide⟩
  | arr xs => exact ⟨'[', _, rfl, by decide⟩
  | obj kvs => exact ⟨lbraceCh, _, rfl, by decide⟩

theorem intToChars_last (m : Int) :
    ∃ d, (intToChars m).getLast? = some (digitChar d) := by
  by_cases hm : m < 0
  · obtain ⟨d, hd⟩ := natToChars_last m.natAbs
    obtain ⟨d0, t0, h0⟩ := natToChars_head m.natAbs
    refine ⟨d, ?_⟩
    rw [intToChars, if_pos hm, h0, List.getLast?_cons_cons, ← h0, hd]
  · obtain ⟨d, hd⟩ := natToChars_last m.natAbs
    exact ⟨d, by rw [intToChars, if_neg hm, hd]⟩

/-- Every serialised value ends with a character that is not whitespace
and not a backtick. -/
theorem serVal_last (x : Json) :
    ∃ c, (serVal x).getLast? = some c ∧ isPyWs c = false ∧ c ≠ tick := by
  cases x with
  | null => exact ⟨'l', rfl, by decide⟩
  | bool b =>
    cases b with
    | true => exact ⟨'e', rfl, by decide⟩
    | false => exact ⟨'e', rfl, by decide⟩
  | num m e =>
    by_cases he : e = 0
    · obtain ⟨d, hd⟩ := intToChars_last m
      refine ⟨digitChar d, ?_, (digitChar_side d).2.1, (digitChar_side d).2.2.2.1⟩
      rw [show serVal (Json.num m e) = serNum m e from rfl, serNum, if_pos he,
        List.append_nil, hd]
    · obtain ⟨d, hd⟩ := intToChars_last e
      refine ⟨digitChar d, ?_, (digitChar_side d).2.1, (digitChar_side d).2.2.2.1⟩
      rw [show serVal (Json.num m e) = serNum m e from rfl, serNum, if_neg he,
        List.getLast?_append,
        show ('e' :: intToChars e) = ['e'] ++ intToChars e from rfl,
        List.getLast?_append, hd]
      rfl
  | str s =>
    refine ⟨'"', ?_, by decide⟩
    rw [show serVal (Json.str s) = serStr s from rfl, serStr,
      show ('"' :: (escList s.data ++ ['"'])) = ('"' :: escList s.data) ++ ['"'] from
        List.cons_append .. , List.getLast?_concat]
  | arr xs =>
    refine ⟨']', ?_, by decide⟩
    rw [show serVal (Json.arr xs) = '[' :: (serArrElems xs ++ [']']) from rfl,
      show ('[' :: (serArrElems xs ++ [']'])) = ('[' :: serArrElems xs) ++ [']'] from
        List.cons_append .. , List.getLast?_concat]
  | obj kvs =>
    refine ⟨rbraceCh, ?_, by decide⟩
    rw [show serVal (Json.obj kvs) = lbraceCh :: (serObjElems kvs ++ [rbraceCh]) from rfl,
      show (lbraceCh :: (serObjElems kvs ++ [rbraceCh]))
          = (lbraceCh :: serObjElems kvs) ++ [rbraceCh] from
        List.cons_append .. , List.getLast?_concat]


/-! ## Fence splitting -/

theorem splitOnTicks_cons_ne (c : Char) (l : List Char) (hc : c ≠ tick) :
    splitOnTicks (c :: l) = consHead c (splitOnTicks l) := by
  cases l with
  | nil =>
    rw [splitOnTicks.eq_def]
  | cons b l2 =>
    cases l2 with
    | nil =>
      rw [splitOnTicks.eq_def]
    | cons d l3 =>
      rw [splitOnTicks.eq_def]
      dsimp only
      rw [if_neg (fun h => hc h.1)]

theorem splitOnTicks_triple (rest : List Char) :
    splitOnTicks (tick :: tick :: tick :: rest) = [] :: splitOnTicks rest := by
  rw [splitOnTicks.eq_def]
  dsimp only
  rw [if_pos ⟨rfl, rfl, rfl⟩]

theorem splitOnTicks_append (cs : List Char) (rest : List Char)
    (h : ∀ c ∈ cs, c ≠ tick) :
    splitOnTicks (cs ++ tick :: tick :: tick :: rest) = cs :: splitOnTicks rest := by
  induction cs with
  | nil => rw [List.nil_append, splitOnTicks_triple]
  | cons c cs ih =>
    rw [List.cons_append, splitOnTicks_cons_ne c _ (h c (List.mem_cons_self c cs)),
        ih (fun x hx => h x (List.mem_cons_of_mem c hx))]
    rfl

/-! ## Size bounds: serialisation is long enough to pay for the fuel -/

theorem jsize_pos (x : Json) : 1 ≤ jsize x := by
  cases x <;> simp [jsize]

theorem jsizeA_pos (xs : List Json) : 1 ≤ jsizeA xs := by
  cases xs <;> simp [jsizeA]

theorem jsizeO_pos (kvs : List (String × Json)) : 1 ≤ jsizeO kvs := by
  cases kvs <;> simp [jsizeO]

theorem natToChars_ne_nil (n : Nat) : natToChars n ≠ [] := by
  obtain ⟨d, t, h⟩ := natToChars_head n
  rw [h]
  exact List.cons_ne_nil _ _

theorem serNum_len (m e : Int) : 1 ≤ (serNum m e).length := by
  obtain ⟨c, t, h, -⟩ := serNum_head m e
  rw [h]
  simp

theorem ser_size_bound : ∀ n : Nat,
    (∀ x, jsize x ≤ n → jsize x ≤ (serVal x).length) ∧
    (∀ xs, jsizeA xs ≤ n → jsizeA xs ≤ (serArrElems xs).length + 1) ∧
    (∀ kvs, jsizeO kvs ≤ n → jsizeO kvs ≤ (serObjElems kvs).length + 1) := by
  intro n
  induction n using Nat.strong_induction_on with
  | _ n ih =>
    refine ⟨?_, ?_, ?_⟩
    · intro x hx
      cases x with
      | null => simp [jsize, serVal]
      | bool b => cases b <;> simp [jsize, serVal]
      | num m e =>
        have := serNum_len m e
        simp only [jsize, serVal]
        omega
      | str s => simp [jsize, serVal, serStr]
      | arr xs =>
        rw [jsize] at hx ⊢
        have hlt : jsizeA xs < n := by
          have := jsizeA_pos xs
          omega
        have hb := (ih (jsizeA xs) hlt).2.1 xs (le_refl _)
        simp only [serVal, List.length_cons, List.length_append,
          List.length_singleton]
        omega
      | obj kvs =>
        rw [jsize] at hx ⊢
        have hlt : jsizeO kvs < n := by
          have := jsizeO_pos kvs
          omega
        have hb := (ih (jsizeO kvs) hlt).2.2 kvs (le_refl _)
        simp only [serVal, List.length_cons, List.length_append,
          List.length_singleton]
        omega
    · intro xs hxs
      cases xs with
      | nil => simp [jsizeA, serArrElems]
      | cons x xs =>
        rw [jsizeA] at hxs ⊢
        have hx : jsize x < n := by
          have := jsize_pos x
          have := Nat.le_max_left (jsize x) (jsizeA xs)
          omega
        have hxs2 : jsizeA xs < n := by
          have := jsizeA_pos xs
          have := Nat.le_max_right (jsize x) (jsizeA xs)
          omega
        have ha := (ih (jsize x) hx).1 x (le_refl _)
        have hb := (ih (jsizeA xs) hxs2).2.1 xs (le_refl _)
        cases xs with
        | nil =>
          have h1 := jsize_pos x
          have h0 : jsizeA ([] : List Json) = 1 := by rw [jsizeA]
          have hone : serArrElems [x] = serVal x := by rw [serArrElems]
          rw [hone]
          omega
        | cons y ys =>
          have hy := jsizeA_pos (y :: ys)
          have hser : serArrElems (x :: y :: ys)
              = serVal x ++ ',' :: serArrElems (y :: ys) := by
            rw [serArrElems.eq_def]
          rw [hser]
          simp only [List.length_append, List.length_cons]
          omega
    · intro kvs hkvs
      cases kvs with
      | nil => simp [jsizeO, serObjElems]
      | cons kv kvs =>
        obtain ⟨k, v⟩ := kv
        rw [jsizeO] at hkvs ⊢
        have hv : jsize v < n := by
          have := jsize_pos v
          have := Nat.le_max_left (jsize v) (jsizeO kvs)
          omega
        have hkvs2 : jsizeO kvs < n := by
          have := jsizeO_pos kvs
          have := Nat.le_max_right (jsize v) (jsizeO kvs)
          omega
        have ha := (ih (jsize v) hv).1 v (le_refl _)
        have hb := (ih (jsizeO kvs) hkvs2).2.2 kvs (le_refl _)
        cases kvs with
        | nil =>
          have h1 := jsize_pos v
          have h0 : jsizeO ([] : List (String × Json)) = 1 := by rw [jsizeO]
          have hser : serObjElems [(k, v)] = serStr k ++ ':' :: serVal v := by
            rw [serObjElems]
          rw [hser]
          simp only [List.length_append, List.length_cons]
          omega
        | cons kv2 kvs2 =>
          obtain ⟨k2, v2⟩ := kv2
          have hy := jsizeO_pos ((k2, v2) :: kvs2)
          have hser : serObjElems ((k, v) :: (k2, v2) :: kvs2)
              = serStr k ++ ':' :: serVal v ++ ',' :: serObjElems ((k2, v2) :: kvs2) := by
            rw [serObjElems.eq_def]
          rw [hser]
          simp only [List.length_append, List.length_cons]
          omega


/-! ## The decoder inverts the serialiser -/

theorem skipJWs_cons (c : Char) (l : List Char) (h : isJWs c = false) :
    skipJWs (c :: l) = c :: l := by
  rw [skipJWs, List.dropWhile_cons, h]
  rfl

theorem numSafe_cons (c : Char) (l : List Char) (h1 : c.isDigit = false)
    (h2 : c ≠ 'e') (h3 : c ≠ 'E') (h4 : c ≠ '.') : numSafe (c :: l) := by
  intro c' hc'
  rw [show (c :: l).head? = some c from rfl] at hc'
  cases hc'
  exact ⟨h1, h2, h3, h4⟩

theorem numSafe_nil : numSafe [] := by
  intro c hc
  cases hc

theorem serArrElems_cons_cons (x y : Json) (ys : List Json) :
    serArrElems (x :: y :: ys) = serVal x ++ ',' :: serArrElems (y :: ys) := by
  rw [serArrElems.eq_def]

theorem serObjElems_cons_cons (k : String) (v : Json) (kv2 : String × Json)
    (kvs : List (String × Json)) :
    serObjElems ((k, v) :: kv2 :: kvs)
      = serStr k ++ ':' :: serVal v ++ ',' :: serObjElems (kv2 :: kvs) := by
  rw [serObjElems.eq_def]

theorem serArrElems_head (x : Json) (xs : List Json) :
    ∃ c t, serArrElems (x :: xs) = c :: t ∧ isJWs c = false ∧ c ≠ ']' := by
  obtain ⟨c, t, hct, _, hjws, _, _, hr1, _⟩ := serVal_head x
  cases xs with
  | nil => exact ⟨c, t, by rw [serArrElems, hct], hjws, hr1⟩
  | cons y ys =>
    refine ⟨c, t ++ ',' :: serArrElems (y :: ys), ?_, hjws, hr1⟩
    rw [serArrElems_cons_cons, hct, List.cons_append]

theorem parse_ser : ∀ fuel : Nat,
    (∀ (x : Json) (rest : List Char), jsize x ≤ fuel → numSafe rest →
        parseVal fuel (serVal x ++ rest) = some (x, rest)) ∧
    (∀ (xs : List Json) (rest : List Char), xs ≠ [] → jsizeA xs ≤ fuel →
        parseElems fuel (serArrElems xs ++ ']' :: rest) = some (xs, rest)) ∧
    (∀ (kvs : List (String × Json)) (rest : List Char), kvs ≠ [] → jsizeO kvs ≤ fuel →
        parseMembers fuel (serObjElems kvs ++ rbraceCh :: rest) = some (kvs, rest)) := by
  intro fuel
  induction fuel using Nat.strong_induction_on with
  | _ fuel ih =>
    refine ⟨?_, ?_, ?_⟩
    · intro x rest hx hrest
      obtain ⟨f, rfl⟩ : ∃ f, fuel = f + 1 := by
        have := jsize_pos x
        exact ⟨fuel - 1, by omega⟩
      cases x with
      | null => rfl
      | bool b => cases b <;> rfl
      | num m e =>
        obtain ⟨c, t, hct, hc⟩ := serNum_head m e
        have hnum := parseNum_serNum m e rest hrest
        have hser : serVal (Json.num m e) ++ rest = c :: (t ++ rest) := by
          rw [show serVal (Json.num m e) = serNum m e from rfl, hct, List.cons_append]
        rw [hser, parseVal.eq_def]
        dsimp only
        have hcf : isJWs c = false := by
          rcases hc with rfl | ⟨d, rfl⟩
          · decide
          · exact (digitChar_side d).2.2.1
        rw [skipJWs_cons c _ hcf]
        dsimp only
        rcases hc with rfl | ⟨d, rfl⟩
        · rw [if_neg (by decide), if_neg (by decide), if_neg (by decide),
            if_neg (by decide), if_neg (by decide), if_neg (by decide),
            if_pos (Or.inl rfl)]
          exact (show ('-' : Char) :: (t ++ rest) = serNum m e ++ rest from by
            rw [hct]; rfl) ▸ hnum
        · obtain ⟨hd1, -, -, -, hd5, hd6, hd7, hd8, hd9, hd10, -, -⟩ := digitChar_side d
          rw [if_neg hd5, if_neg hd6, if_neg hd7, if_neg hd8, if_neg hd9,
            if_neg hd10, if_pos (Or.inr hd1),
            show digitChar d :: (t ++ rest) = serNum m e ++ rest from by rw [hct]; rfl]
          exact hnum
      | str s =>
        show (parseStrBody ((escList s.data ++ ['"']) ++ rest)).map
            (fun pr => (Json.str (String.mk pr.1), pr.2)) = some (Json.str s, rest)
        rw [List.append_assoc, List.singleton_append, parseStrBody_escList]
        rfl
      | arr xs =>
        cases xs with
        | nil => rfl
        | cons x xs =>
          obtain ⟨c, t, hct, hjws, hne⟩ := serArrElems_head x xs
          have hsk : skipJWs (serArrElems (x :: xs) ++ ']' :: rest)
              = serArrElems (x :: xs) ++ ']' :: rest := by
            apply skipJWs_fix
            intro c' hc'
            rw [hct, List.cons_append] at hc'
            cases hc'
            exact hjws
          have hq := (ih f (by omega)).2.1 (x :: xs) rest (List.cons_ne_nil x xs)
            (by rw [jsize] at hx; omega)
          have hser : serVal (Json.arr (x :: xs)) ++ rest
              = '[' :: (serArrElems (x :: xs) ++ ']' :: rest) := by
            rw [show serVal (Json.arr (x :: xs))
                  = '[' :: (serArrElems (x :: xs) ++ [']']) from rfl]
            simp [List.append_assoc]
          rw [hser, parseVal.eq_def]
          dsimp only
          rw [skipJWs_cons '[' _ (by decide)]
          dsimp only
          rw [if_neg (by decide), if_neg (by decide), if_neg (by decide),
            if_neg (by decide), if_pos rfl, hsk]
          rw [show serArrElems (x :: xs) ++ ']' :: rest = c :: (t ++ ']' :: rest) from by
            rw [hct, List.cons_append]]
          dsimp only
          rw [if_neg hne]
          rw [show c :: (t ++ ']' :: rest) = serArrElems (x :: xs) ++ ']' :: rest from by
            rw [hct, List.cons_append], hq]
          rfl
      | obj kvs =>
        cases kvs with
        | nil => rfl
        | cons kv kvs =>
          obtain ⟨k, v⟩ := kv
          have hobjhead : ∃ t, serObjElems ((k, v) :: kvs) = '"' :: t := by
            cases kvs with
            | nil => exact ⟨escList k.data ++ ['"'] ++ ':' :: serVal v, by
                rw [serObjElems, serStr]
                simp [List.append_assoc]⟩
            | cons kv2 kvs2 =>
              exact ⟨escList k.data ++ ['"'] ++ ':' :: (serVal v
                  ++ ',' :: serObjElems (kv2 :: kvs2)), by
                rw [serObjElems_cons_cons, serStr]
                simp [List.append_assoc]⟩
          obtain ⟨t, ht⟩ := hobjhead
          have hsk : skipJWs (serObjElems ((k, v) :: kvs) ++ rbraceCh :: rest)
              = serObjElems ((k, v) :: kvs) ++ rbraceCh :: rest := by
            apply skipJWs_fix
            intro c' hc'
            rw [ht, List.cons_append] at hc'
            cases hc'
            decide
          have hq := (ih f (by omega)).2.2 ((k, v) :: kvs) rest
            (List.cons_ne_nil (k, v) kvs) (by rw [jsize] at hx; omega)
          have hser : serVal (Json.obj ((k, v) :: kvs)) ++ rest
              = lbraceCh :: (serObjElems ((k, v) :: kvs) ++ rbraceCh :: rest) := by
            rw [show serVal (Json.obj ((k, v) :: kvs))
                  = lbraceCh :: (serObjElems ((k, v) :: kvs) ++ [rbraceCh]) from rfl]
            simp [List.append_assoc]
          rw [hser, parseVal.eq_def]
          dsimp only
          rw [skipJWs_cons lbraceCh _ (by decide)]
          dsimp only
          rw [if_neg (by decide), if_neg (by decide), if_neg (by decide),
            if_neg (by decide), if_neg (by decide), if_pos rfl, hsk]
          rw [show serObjElems ((k, v) :: kvs) ++ rbraceCh :: rest
              = '"' :: (t ++ rbraceCh :: rest) from by rw [ht, List.cons_append]]
          dsimp only
          rw [if_neg (by decide)]
          rw [show ('"' : Char) :: (t ++ rbraceCh :: rest)
              = serObjElems ((k, v) :: kvs) ++ rbraceCh :: rest from by
            rw [ht, List.cons_append], hq]
          rfl
    · intro xs rest hne hxs
      obtain ⟨f, rfl⟩ : ∃ f, fuel = f + 1 := by
        have := jsizeA_pos xs
        exact ⟨fuel - 1, by omega⟩
      cases xs with
      | nil => exact absurd rfl hne
      | cons x xs =>
        rw [jsizeA] at hxs
        cases xs with
        | nil =>
          have hp := (ih f (by omega)).1 x (']' :: rest)
            (by have := Nat.le_max_left (jsize x) (jsizeA ([] : List Json)); omega)
            (numSafe_cons ']' rest (by decide) (by decide) (by decide) (by decide))
          rw [show serArrElems [x] = serVal x from by rw [serArrElems]]
          rw [parseElems.eq_def]
          dsimp only
          rw [hp]
          dsimp only
          rw [skipJWs_cons ']' rest (by decide)]
          dsimp only
          rw [if_neg (by decide), if_pos rfl]
        | cons y ys =>
          have hp := (ih f (by omega)).1 x
            (',' :: (serArrElems (y :: ys) ++ ']' :: rest))
            (by have := Nat.le_max_left (jsize x) (jsizeA (y :: ys)); omega)
            (numSafe_cons ',' _ (by decide) (by decide) (by decide) (by decide))
          have hq := (ih f (by omega)).2.1 (y :: ys) rest (List.cons_ne_nil y ys)
            (by have := Nat.le_max_right (jsize x) (jsizeA (y :: ys)); omega)
          rw [serArrElems_cons_cons, List.append_assoc, List.cons_append]
          rw [parseElems.eq_def]
          dsimp only
          rw [hp]
          dsimp only
          rw [skipJWs_cons ',' _ (by decide)]
          dsimp only
          rw [if_pos rfl, hq]
          rfl
    · intro kvs rest hne hkvs
      obtain ⟨f, rfl⟩ : ∃ f, fuel = f + 1 := by
        have := jsizeO_pos kvs
        exact ⟨fuel - 1, by omega⟩
      cases kvs with
      | nil => exact absurd rfl hne
      | cons kv kvs =>
        obtain ⟨k, v⟩ := kv
        rw [jsizeO] at hkvs
        cases kvs with
        | nil =>
          have hp := (ih f (by omega)).1 v (rbraceCh :: rest)
            (by have := Nat.le_max_left (jsize v) (jsizeO ([] : List (String × Json))); omega)
            (numSafe_cons rbraceCh rest (by decide) (by decide) (by decide) (by decide))
          have hshape : serObjElems [(k, v)] ++ rbraceCh :: rest
              = '"' :: (escList k.data ++ '"' :: (':' :: (serVal v ++ rbraceCh :: rest))) := by
            rw [serObjElems, serStr]
            simp [List.append_assoc]
          rw [hshape, parseMembers.eq_def]
          dsimp only
          rw [skipJWs_cons '"' _ (by decide)]
          dsimp only
          rw [if_pos rfl, parseStrBody_escList]
          dsimp only
          rw [skipJWs_cons ':' _ (by decide)]
          dsimp only
          rw [if_pos rfl, hp]
          dsimp only
          rw [skipJWs_cons rbraceCh _ (by decide)]
          dsimp only
          rw [if_neg (by decide), if_pos rfl]
        | cons kv2 kvs2 =>
          have hp := (ih f (by omega)).1 v
            (',' :: (serObjElems (kv2 :: kvs2) ++ rbraceCh :: rest))
            (by have := Nat.le_max_left (jsize v) (jsizeO (kv2 :: kvs2)); omega)
            (numSafe_cons ',' _ (by decide) (by decide) (by decide) (by decide))
          have hq := (ih f (by omega)).2.2 (kv2 :: kvs2) rest
            (List.cons_ne_nil kv2 kvs2)
            (by have := Nat.le_max_right (jsize v) (jsizeO (kv2 :: kvs2)); omega)
          have hshape : serObjElems ((k, v) :: kv2 :: kvs2) ++ rbraceCh :: rest
              = '"' :: (escList k.data ++ '"' :: (':' :: (serVal v
                  ++ ',' :: (serObjElems (kv2 :: kvs2) ++ rbraceCh :: rest)))) := by
            rw [serObjElems_cons_cons, serStr]
            simp [List.append_assoc]
          rw [hshape, parseMembers.eq_def]
          dsimp only
          rw [skipJWs_cons '"' _ (by decide)]
          dsimp only
          rw [if_pos rfl, parseStrBody_escList]
          dsimp only
          rw [skipJWs_cons ':' _ (by decide)]
          dsimp only
          rw [if_pos rfl, hp]
          dsimp only
          rw [skipJWs_cons ',' _ (by decide)]
          dsimp only
          rw [if_pos rfl, hq]
          rfl


theorem jsonLoads_serVal (x : Json) : jsonLoads (serVal x) = some x := by
  obtain ⟨c, t, hct, -, hjws, -, -, -, -⟩ := serVal_head x
  have hsk : skipJWs (serVal x) = serVal x := by
    apply skipJWs_fix
    intro c' hc'
    rw [hct] at hc'
    cases hc'
    exact hjws
  have hbound : jsize x ≤ (serVal x).length :=
    (ser_size_bound (jsize x)).1 x (le_refl _)
  have hp := (parse_ser ((serVal x).length + 1)).1 x [] (by omega) numSafe_nil
  rw [List.append_nil] at hp
  rw [jsonLoads, hsk, hp]
  rfl

theorem cleanContent_ser (x : Json) : cleanContent (serVal x) = serVal x := by
  obtain ⟨c, t, hct, hws, -, htick, -, -, -⟩ := serVal_head x
  obtain ⟨cl, hcl, hclws, -⟩ := serVal_last x
  have hstrip : pyStrip (serVal x) = serVal x := by
    apply pyStrip_fix
    · intro c' hc'
      rw [hct] at hc'
      cases hc'
      exact hws
    · intro c' hc'
      rw [hcl] at hc'
      cases hc'
      exact hclws
  have hlw : leadsWith [tick, tick, tick] (serVal x) = false := by
    rw [hct]
    exact leadsWith_cons_ne tick _ c t htick
  unfold cleanContent
  simp only [hstrip, hlw, Bool.false_eq_true, if_false]

theorem cleanContent_fence (x : Json) (htick : tick ∉ serVal x) :
    cleanContent ([tick, tick, tick] ++ serVal x ++ [tick, tick, tick])
      = serVal x := by
  obtain ⟨c, t, hct, hws, -, -, hj, -, -⟩ := serVal_head x
  obtain ⟨cl, hcl, hclws, -⟩ := serVal_last x
  have hstripS : pyStrip (serVal x) = serVal x := by
    apply pyStrip_fix
    · intro c' hc'
      rw [hct] at hc'
      cases hc'
      exact hws
    · intro c' hc'
      rw [hcl] at hc'
      cases hc'
      exact hclws
  have hfix : pyStrip ([tick, tick, tick] ++ serVal x ++ [tick, tick, tick])
      = [tick, tick, tick] ++ serVal x ++ [tick, tick, tick] := by
    apply pyStrip_fix
    · intro c' hc'
      cases hc'
      decide
    · intro c' hc'
      rw [show [tick, tick, tick] ++ serVal x ++ [tick, tick, tick]
            = ([tick, tick, tick] ++ serVal x ++ [tick, tick]) ++ [tick] from by
          simp] at hc'
      rw [List.getLast?_concat] at hc'
      cases hc'
      decide
  have hlw : leadsWith [tick, tick, tick]
      ([tick, tick, tick] ++ serVal x ++ [tick, tick, tick]) = true := by
    rw [List.append_assoc]
    exact leadsWith_append _ _
  have hsplit : splitOnTicks ([tick, tick, tick] ++ serVal x ++ [tick, tick, tick])
      = [] :: serVal x :: [[]] := by
    rw [show [tick, tick, tick] ++ serVal x ++ [tick, tick, tick]
          = tick :: tick :: tick :: (serVal x ++ tick :: tick :: tick :: []) from by
        simp]
    rw [splitOnTicks_triple, splitOnTicks_append (serVal x) []
      (fun c' hc' heq => htick (heq ▸ hc'))]
    rfl
  have hlwj : leadsWith jsonTag (serVal x) = false := by
    rw [hct]
    exact leadsWith_cons_ne 'j' _ c t hj
  unfold cleanContent
  simp only [hfix, hlw, if_true, hsplit, List.getD, List.get?,
    Option.getD_some, hlwj, Bool.false_eq_true, if_false]
  exact hstripS

theorem cleanContent_fence_tagged (x : Json) (htick : tick ∉ serVal x) :
    cleanContent ([tick, tick, tick] ++ jsonTag ++ '\n' :: serVal x
        ++ [tick, tick, tick]) = serVal x := by
  obtain ⟨c, t, hct, hws, -, -, hj, -, -⟩ := serVal_head x
  obtain ⟨cl, hcl, hclws, -⟩ := serVal_last x
  have hstripS : pyStrip (serVal x) = serVal x := by
    apply pyStrip_fix
    · intro c' hc'
      rw [hct] at hc'
      cases hc'
      exact hws
    · intro c' hc'
      rw [hcl] at hc'
      cases hc'
      exact hclws
  have hfix : pyStrip ([tick, tick, tick] ++ jsonTag ++ '\n' :: serVal x
        ++ [tick, tick, tick])
      = [tick, tick, tick] ++ jsonTag ++ '\n' :: serVal x ++ [tick, tick, tick] := by
    apply pyStrip_fix
    · intro c' hc'
      cases hc'
      decide
    · intro c' hc'
      rw [show [tick, tick, tick] ++ jsonTag ++ '\n' :: serVal x ++ [tick, tick, tick]
            = ([tick, tick, tick] ++ jsonTag ++ '\n' :: serVal x ++ [tick, tick])
                ++ [tick] from by simp] at hc'
      rw [List.getLast?_concat] at hc'
      cases hc'
      decide
  have hlw : leadsWith [tick, tick, tick]
      ([tick, tick, tick] ++ jsonTag ++ '\n' :: serVal x ++ [tick, tick, tick])
        = true := by
    rw [List.append_assoc, List.append_assoc]
    exact leadsWith_append _ _
  have hsplit : splitOnTicks ([tick, tick, tick] ++ jsonTag ++ '\n' :: serVal x
        ++ [tick, tick, tick])
      = [] :: (jsonTag ++ '\n' :: serVal x) :: [[]] := by
    rw [show [tick, tick, tick] ++ jsonTag ++ '\n' :: serVal x ++ [tick, tick, tick]
          = tick :: tick :: tick :: ((jsonTag ++ '\n' :: serVal x)
              ++ tick :: tick :: tick :: []) from by simp]
    rw [splitOnTicks_triple, splitOnTicks_append (jsonTag ++ '\n' :: serVal x) []
      (by
        intro c' hc' heq
        rcases List.mem_append.mp hc' with h | h
        · rw [heq] at h
          revert h
          decide
        · rcases List.mem_cons.mp h with h2 | h2
          · rw [heq] at h2
            revert h2
            decide
          · exact htick (heq ▸ h2))]
    rfl
  have hlwj : leadsWith jsonTag (jsonTag ++ '\n' :: serVal x) = true :=
    leadsWith_append _ _
  have hdrop : (jsonTag ++ '\n' :: serVal x).drop 4 = '\n' :: serVal x := by
    rw [show (4 : Nat) = jsonTag.length from rfl]
    exact List.drop_left _ _
  unfold cleanContent
  simp only [hfix, hlw, if_true, hsplit, List.getD, List.get?,
    Option.getD_some, hlwj, if_true, hdrop]
  rw [pyStrip_cons_ws '\n' _ (by decide)]
  exact hstripS

theorem parseVal_tick (f : Nat) (cs : List Char) :
    parseVal (f + 1) (tick :: cs) = none := by
  rw [parseVal.eq_def]
  dsimp only
  rw [skipJWs_cons tick cs (by decide)]
  dsimp only
  rw [if_neg (by decide), if_neg (by decide), if_neg (by decide),
    if_neg (by decide), if_neg (by decide), if_neg (by decide),
    if_neg (by decide)]

theorem jsonLoads_tick (cs : List Char) : jsonLoads (tick :: cs) = none := by
  rw [jsonLoads, skipJWs_cons tick cs (by decide), List.length_cons,
    parseVal_tick]


/-- C6 counterexample: the parser does NOT always return a record matching
the expected schema. On inputs that decode to non-schema JSON it passes
the decoded value through verbatim: the input `3` yields the bare number
`3`, on which `.get("decision")` is an `AttributeError` (modelled `none`),
not the sentinel record (whose `decision` is `FAIL`). -/
theorem C6_counterexample :
    critique_parse "3" = Json.num 3 0 ∧
    jsonGet (critique_parse "3") "decision" = none ∧
    jsonGet (critiqueFallback "3") "decision" = some (some (Json.str "FAIL")) :=
  ⟨rfl, rfl, rfl⟩

/-- C6 amended: the parser of `main.py` round-trips every well-formed
payload exactly — bare, fenced, or fenced with a `json` tag (the fenced
forms provided the payload itself contains no backtick) — and on decode
failure returns the sentinel record with decision `FAIL`, score `6.0`,
and a feedback field holding a fixed prefix plus the first 200 characters
of the raw input; but a successfully decoded payload is returned verbatim
whether or not it matches the schema, and the parser of `agent.py` does
no fence stripping, so every backtick-led input lands in its (smaller,
score `5.0`) fallback record. -/
theorem C6_amended :
    (∀ x : Json, critique_parse (serialize x) = x) ∧
    (∀ x : Json, tick ∉ serVal x →
        critique_parse (fenced x) = x ∧ critique_parse (fencedTagged x) = x) ∧
    (∀ raw : String, jsonLoads (cleanContent raw.data) = none →
        critique_parse raw = critiqueFallback raw ∧
        jsonGet (critiqueFallback raw) "decision" = some (some (Json.str "FAIL")) ∧
        jsonGet (critiqueFallback raw) "overall_score"
          = some (some (Json.num 6 0)) ∧
        jsonGet (critiqueFallback raw) "feedback"
          = some (some (Json.str ("Could not parse critique properly. " ++
              "Raw response: " ++ String.mk (raw.data.take 200))))) ∧
    (∀ cs : List Char, agent_critique_parse (String.mk (tick :: cs))
        = Json.obj [("overall_score", Json.num 5 0),
                    ("decision", Json.str "FAIL"),
                    ("feedback", Json.str (String.mk (tick :: cs)))]) := by
  refine ⟨?_, ?_, ?_, ?_⟩
  · intro x
    have hd : (serialize x).data = serVal x := rfl
    unfold critique_parse
    rw [hd, cleanContent_ser, jsonLoads_serVal]
  · intro x htick
    constructor
    · have hd : (fenced x).data
          = [tick, tick, tick] ++ serVal x ++ [tick, tick, tick] := rfl
      unfold critique_parse
      rw [hd, cleanContent_fence x htick, jsonLoads_serVal]
    · have hd : (fencedTagged x).data
          = [tick, tick, tick] ++ jsonTag ++ '\n' :: serVal x
              ++ [tick, tick, tick] := rfl
      unfold critique_parse
      rw [hd, cleanContent_fence_tagged x htick, jsonLoads_serVal]
  · intro raw h
    refine ⟨?_, rfl, rfl, rfl⟩
    unfold critique_parse
    rw [h]
  · intro cs
    have hd : (String.mk (tick :: cs)).data = tick :: cs := rfl
    unfold agent_critique_parse
    rw [hd, jsonLoads_tick]

/-- C6 amended, witnessed at a concrete payload and a concrete malformed
input. -/
theorem C6_amended_witness :
    tick ∉ serVal exPayload ∧
    critique_parse (serialize exPayload) = exPayload ∧
    critique_parse (fenced exPayload) = exPayload ∧
    critique_parse (fencedTagged exPayload) = exPayload ∧
    jsonLoads (cleanContent ("not json").data) = none ∧
    critique_parse "not json" = critiqueFallback "not json" ∧
    agent_critique_parse (String.mk (tick :: ('x').toString.data))
      = Json.obj [("overall_score", Json.num 5 0),
                  ("decision", Json.str "FAIL"),
                  ("feedback", Json.str (String.mk (tick :: ('x').toString.data)))] := by
  have ht : tick ∉ serVal exPayload := by decide
  have hn : jsonLoads (cleanContent ("not json").data) = none := rfl
  exact ⟨ht, C6_amended.1 exPayload,
    (C6_amended.2.1 exPayload ht).1, (C6_amended.2.1 exPayload ht).2,
    hn, (C6_amended.2.2.1 "not json" hn).1,
    C6_amended.2.2.2 ('x').toString.data⟩

end Pitch
